import Mathlib

/-!
# holmes: the classification pipeline and its watching list

A shallow embedding of `src/holmes/filter.go` (with the Redis wrappers of
`src/holmes/redis.go` it calls) and theorems about it.

Modelling choices.

* A Redis connection is a value of type `Redis`: its hashes, lists and sets,
  each keyed by the key name, plus the sequence `calls` of the wrapper calls
  made on the connection so far (oldest first).  Every key is used by the
  program at one type only (sets: `WatchingList`, `WhiteList`, `RefererList`,
  `Referer_<addr>`; lists: `WL_<addr>`; hashes: `accesslog_result_...`), so
  the three kinds of value are kept in three maps; `KeyDel` clears the key in
  all three.  Hash fields hold mathematical integers.
* The two handles the pipeline uses are the fields of `Store`: `redisConn`
  is the connection handed to `DoFilter` (`redisConn2` in `Filter`) and
  `redisConn3` is the global connection holding the counters.
* The loop of `Filter` is modelled by its body, `Filter.iteration`, on the
  three connections `Globals`; `redisConn1` holds the queue `accesslog`.  A
  `BlockListRightPop` on an empty list is the reply after the wait.
* A wrapper whose integer reply is discarded by every caller in `filter.go`
  is a store transformer; a wrapper whose reply is read returns it together
  with the new connection.
* `GetLog`, `AccessLog.String`, `AccessLog.LogTimeMinString`, `Parse` and the
  record type `AccessLog` are declared in files that are not part of the
  sources at hand; the functions are parameters (`Env`) of every definition.
* Go strings are Lean strings (sequences of code points).
-/

namespace Holmes

/-! ## Verdict constants (`const ( YES = iota; NO; UNKNOWN )`) -/

/-- Is a human. -/
def YES : Int := 0
/-- Is not a human. -/
def NO : Int := 1
/-- Not decided. -/
def UNKNOWN : Int := 2

/-! ## The access-log record and the external collaborators -/

/-- Modelled from the spec: the record type `AccessLog`, whose declaration is
not among the sources.  The fields are the ones `filter.go` reads
(`RemoteAddr`, `Hostname`, `RequestURI`, `HttpCode`, `UserAgent`, `Referer`,
`GUID`) and the timestamp of the spec's data model. -/
structure AccessLog where
  RemoteAddr : String
  Hostname : String
  RequestURI : String
  HttpCode : String
  UserAgent : String
  Referer : String
  GUID : String
  LogTime : String
deriving DecidableEq

/-- The functions `filter.go` calls but does not define: the line parser
`GetLog`, the serialiser `AccessLog.String`, the minute bucket
`AccessLog.LogTimeMinString`, the user-agent classifier `Parse`, and the
lower-casing of code points outside ASCII done by `strings.ToLower`. -/
structure Env where
  GetLog : String → AccessLog
  LogString : AccessLog → String
  LogTimeMinString : AccessLog → String
  Parse : String → String
  unicodeLower : Char → Char

/-! ## Standard-library string functions -/

/-- Go `strings.ToLower`: every code point is mapped to its lower case; on ASCII
that is `A`..`Z` to `a`..`z`, elsewhere it is the collaborator's table. -/
def ToLower (env : Env) (s : String) : String :=
  String.mk (s.data.map (fun c => if c.val < 128 then c.toLower else env.unicodeLower c))

/-- Whether `pat` is an initial segment of `s`. -/
def startsWithChars : List Char → List Char → Bool
  | [], _ => true
  | _ :: _, [] => false
  | p :: ps, c :: cs => p == c && startsWithChars ps cs

/-- Whether `pat` occurs somewhere in `s`. -/
def containsChars (pat : List Char) : List Char → Bool
  | [] => startsWithChars pat []
  | c :: cs => startsWithChars pat (c :: cs) || containsChars pat cs

/-- Go `strings.Contains(s, substr)`. -/
def Contains (s substr : String) : Bool :=
  containsChars substr.data s.data

/-- Matching of a regular expression made of literal characters and the
wildcard `.` (any character but a newline) at the start of the input. -/
def matchHere : List Char → List Char → Bool
  | [], _ => true
  | _ :: _, [] => false
  | p :: ps, c :: cs => (if p = '.' then c != '\n' else p == c) && matchHere ps cs

/-- Go `regexp.MatchString(pattern, s)` for the patterns of `filter.go`, which
are all of the form `^` followed by literal characters and `.`; the error
result is `nil` for them. -/
def MatchString (pattern s : String) : Bool :=
  match pattern.data with
  | '^' :: ps => matchHere ps s.data
  | _ => false

/-! ## The Redis connection (`redis.go`) -/

/-- A call of one of the wrappers of `redis.go`, with the reply where the
caller reads it. -/
inductive Call where
  | HashIncrby (ht field : String) (increment : Int)
  | ListLen (list : String) (reply : Int)
  | ListLeftPush (list item : String)
  | ListLeftPop (list : String) (reply : String)
  | SetAdd (set member : String)
  | SetRem (set member : String)
  | SetIsMember (set member : String) (reply : Int)
  | KeyDel (key : String)
  | BlockListRightPop (list : String) (timeout : Int) (listname item : String)
deriving DecidableEq

/-- The contents of one Redis connection and the calls made on it. -/
structure Redis where
  hashes : String → String → Int
  lists : String → List String
  sets : String → String → Bool
  calls : List Call

namespace Redis

/-- A connection to an empty database. -/
def empty : Redis :=
  { hashes := fun _ _ => 0, lists := fun _ => [], sets := fun _ _ => false, calls := [] }

/-- The wrapper `KeyDel`: `DEL key`. -/
def KeyDel (r : Redis) (key : String) : Redis :=
  { hashes := fun k => if k = key then fun _ => 0 else r.hashes k
    lists := fun k => if k = key then [] else r.lists k
    sets := fun k => if k = key then fun _ => false else r.sets k
    calls := r.calls ++ [Call.KeyDel key] }

/-- The wrapper `HashIncrby`: `HINCRBY ht field increment`. -/
def HashIncrby (r : Redis) (ht field : String) (increment : Int) : Redis :=
  { r with
    hashes := fun k f => if k = ht ∧ f = field then r.hashes k f + increment else r.hashes k f
    calls := r.calls ++ [Call.HashIncrby ht field increment] }

/-- The wrapper `ListLen`: `LLEN list`. -/
def ListLen (r : Redis) (list : String) : Int × Redis :=
  ((r.lists list).length,
   { r with calls := r.calls ++ [Call.ListLen list (r.lists list).length] })

/-- The wrapper `ListLeftPush`: `LPUSH list item`. -/
def ListLeftPush (r : Redis) (list item : String) : Redis :=
  { r with
    lists := fun k => if k = list then item :: r.lists k else r.lists k
    calls := r.calls ++ [Call.ListLeftPush list item] }

/-- The wrapper `ListLeftPop`: `LPOP list`; the reply is the empty string when the list
has no element. -/
def ListLeftPop (r : Redis) (list : String) : String × Redis :=
  match r.lists list with
  | [] => ("", { r with calls := r.calls ++ [Call.ListLeftPop list ""] })
  | item :: rest =>
    (item,
     { r with
       lists := fun k => if k = list then rest else r.lists k
       calls := r.calls ++ [Call.ListLeftPop list item] })

/-- The wrapper `SetAdd`: `SADD set member`. -/
def SetAdd (r : Redis) (set member : String) : Redis :=
  { r with
    sets := fun k m => if k = set ∧ m = member then true else r.sets k m
    calls := r.calls ++ [Call.SetAdd set member] }

/-- The wrapper `SetRem`: `SREM set member`. -/
def SetRem (r : Redis) (set member : String) : Redis :=
  { r with
    sets := fun k m => if k = set ∧ m = member then false else r.sets k m
    calls := r.calls ++ [Call.SetRem set member] }

/-- The wrapper `SetIsMember`: `SISMEMBER set member`, 1 for a member and 0 otherwise. -/
def SetIsMember (r : Redis) (set member : String) : Int × Redis :=
  let reply : Int := if r.sets set member then 1 else 0
  (reply, { r with calls := r.calls ++ [Call.SetIsMember set member reply] })

/-- The wrapper `BlockListRightPop`: `BRPOP list timeout`, which takes the
rightmost item of the list and replies with the name of the list and the item;
when the wait ends with the list still empty it replies with two empty
strings. -/
def BlockListRightPop (r : Redis) (list : String) (timeout : Int) :
    (String × String) × Redis :=
  match (r.lists list).getLast? with
  | none => (("", ""), { r with calls := r.calls ++ [Call.BlockListRightPop list timeout "" ""] })
  | some item =>
    ((list, item),
     { r with
       lists := fun k => if k = list then (r.lists k).dropLast else r.lists k
       calls := r.calls ++ [Call.BlockListRightPop list timeout list item] })

end Redis

/-- The two connections of the pipeline: `redisConn`, the handle passed to
`DoFilter`, and the global `redisConn3` of the counters. -/
structure Store where
  redisConn : Redis
  redisConn3 : Redis

/-- Both connections empty. -/
def Store.empty : Store :=
  { redisConn := Redis.empty, redisConn3 := Redis.empty }

/-! ## The pipeline (`filter.go`) -/

/-- The function `AddRefererList` of `filter.go`. -/
def AddRefererList (s : Store) (accesslog : AccessLog) : Store :=
  let c1 := s.redisConn.SetAdd "RefererList" accesslog.RemoteAddr
  let c2 := c1.SetAdd ("Referer_" ++ accesslog.RemoteAddr)
    ("http://" ++ accesslog.Hostname ++ accesslog.RequestURI)
  { s with redisConn := c2 }

/-- The function `DelRefererList` of `filter.go`. -/
def DelRefererList (s : Store) (accesslog : AccessLog) : Store :=
  let c1 := s.redisConn.SetRem "RefererList" accesslog.RemoteAddr
  let c2 := c1.KeyDel ("Referer_" ++ accesslog.RemoteAddr)
  { s with redisConn := c2 }

/-- The function `AddWatchingList` of `filter.go`. -/
def AddWatchingList (env : Env) (s : Store) (accesslog : AccessLog) : Store :=
  let logTimeMin := env.LogTimeMinString accesslog
  let c3 := s.redisConn3.HashIncrby "accesslog_result_vppv_watching_per_min" logTimeMin 1
  let c1 := s.redisConn.SetAdd "WatchingList" accesslog.RemoteAddr
  let c2 := c1.ListLeftPush ("WL_" ++ accesslog.RemoteAddr) (env.LogString accesslog)
  { redisConn := c2, redisConn3 := c3 }

/-- The function `DelWatchingList` of `filter.go`. -/
def DelWatchingList (s : Store) (accesslog : AccessLog) : Store :=
  let c1 := s.redisConn.SetRem "WatchingList" accesslog.RemoteAddr
  let c2 := c1.KeyDel ("WL_" ++ accesslog.RemoteAddr)
  { s with redisConn := c2 }

/-- The function `AddWhiteList` of `filter.go`. -/
def AddWhiteList (s : Store) (accesslog : AccessLog) : Store :=
  { s with redisConn := s.redisConn.SetAdd "WhiteList" accesslog.RemoteAddr }

/-- The function `AddIgnoreList` of `filter.go`. -/
def AddIgnoreList (s : Store) (accesslog : AccessLog) : Store :=
  { s with redisConn := s.redisConn.SetAdd "IgnoreList" accesslog.RemoteAddr }

/-- The function `RefererFilter` of `filter.go`. -/
def RefererFilter (env : Env) (s : Store) (accesslog : AccessLog) : Int × Store :=
  let logTimeMin := env.LogTimeMinString accesslog
  if Contains accesslog.Referer "my.anjuke.com" = true then
    let c3 := s.redisConn3.HashIncrby "accesslog_result_vppv_from_my_per_min" logTimeMin 1
    (NO, { s with redisConn3 := c3 })
  else
    if accesslog.Referer ≠ "-" then
      (YES, s)
    else
      let c3 := s.redisConn3.HashIncrby "accesslog_result_vppv_no_referer_per_min" logTimeMin 1
      (NO, { s with redisConn3 := c3 })

/-- The body of the loop of `ProcessWatchingList`, run for the remaining
number of iterations; the state of the loop is the store and `trustFlag`. -/
def ProcessWatchingList.loop (env : Env) (accesslog : AccessLog) :
    Nat → Store → Bool → Store × Bool
  | 0, s, trustFlag => (s, trustFlag)
  | n + 1, s, trustFlag =>
    let popped := s.redisConn.ListLeftPop ("WL_" ++ accesslog.RemoteAddr)
    let line := popped.1
    let s1 : Store := { s with redisConn := popped.2 }
    let watchAccesslog := env.GetLog line
    let logTimeMin := env.LogTimeMinString watchAccesslog
    let judged := RefererFilter env s1 watchAccesslog
    let s2 := judged.2
    let c3 :=
      if judged.1 = YES then
        s2.redisConn3.HashIncrby "accesslog_result_vppv_effective_per_min" logTimeMin 1
      else s2.redisConn3
    let c3 := c3.HashIncrby "accesslog_result_vppv_watching_per_min" logTimeMin (-1)
    let s4 : Store := { s2 with redisConn3 := c3 }
    ProcessWatchingList.loop env accesslog n s4 (if judged.1 = YES then true else trustFlag)

/-- The function `ProcessWatchingList` of `filter.go`. -/
def ProcessWatchingList (env : Env) (s : Store) (accesslog : AccessLog) : Store :=
  let len := s.redisConn.ListLen ("WL_" ++ accesslog.RemoteAddr)
  let s0 : Store := { s with redisConn := len.2 }
  let looped := ProcessWatchingList.loop env accesslog len.1.toNat s0 false
  let s1 := DelWatchingList looped.1 accesslog
  let s2 := DelRefererList s1 accesslog
  if looped.2 then AddWhiteList s2 accesslog else s2

/-- The function `Analysis` of `filter.go`. -/
def Analysis (env : Env) (s : Store) (accesslog : AccessLog) : Store :=
  if MatchString "^s.anjuke.com" accesslog.Hostname then
    ProcessWatchingList env s accesslog
  else s

/-- The function `WhiteIpFilter` of `filter.go`. -/
def WhiteIpFilter (env : Env) (s : Store) (accesslog : AccessLog) : Int × Store :=
  let isMember := s.redisConn.SetIsMember "WhiteList" accesslog.RemoteAddr
  let s1 : Store := { s with redisConn := isMember.2 }
  if 1 = isMember.1 then (YES, s1)
  else (UNKNOWN, AddWatchingList env s1 accesslog)

/-- The function `HttpCodeFilter` of `filter.go`. -/
def HttpCodeFilter (env : Env) (s : Store) (accesslog : AccessLog) : Int × Store :=
  let logTimeMin := env.LogTimeMinString accesslog
  let c3 := s.redisConn3.HashIncrby
    ("accesslog_result_vppv_code_" ++ accesslog.HttpCode ++ "_per_min") logTimeMin 1
  let s1 : Store := { s with redisConn3 := c3 }
  if MatchString "^2" accesslog.HttpCode then WhiteIpFilter env s1 accesslog
  else (UNKNOWN, s1)

/-- The function `URIFilter` of `filter.go`. -/
def URIFilter (env : Env) (s : Store) (accesslog : AccessLog) : Int × Store :=
  let logTimeMin := env.LogTimeMinString accesslog
  if MatchString "^/prop/view/" accesslog.RequestURI then
    let c3 := s.redisConn3.HashIncrby "accesslog_result_vppv_total_per_min" logTimeMin 1
    HttpCodeFilter env { s with redisConn3 := c3 } accesslog
  else (UNKNOWN, Analysis env s accesslog)

/-- The function `UserAgentFilter` of `filter.go`. -/
def UserAgentFilter (env : Env) (s : Store) (accesslog : AccessLog) : Int × Store :=
  let ua := ToLower env accesslog.UserAgent
  let logTimeMin := env.LogTimeMinString accesslog
  if accesslog.UserAgent = "-" ∨ Contains ua "bot" = true ∨ Contains ua "spider" = true then
    let c3 := s.redisConn3.HashIncrby "accesslog_result_ua_not_pass_per_min" logTimeMin 1
    (NO, { s with redisConn3 := c3 })
  else
    let uaFamily := env.Parse accesslog.UserAgent
    if uaFamily = "" then
      let c3 := s.redisConn3.HashIncrby "accesslog_result_ua_not_pass_per_min" logTimeMin 1
      (NO, { s with redisConn3 := c3 })
    else
      let uaFamily := ToLower env uaFamily
      let c3 := s.redisConn3.HashIncrby "accesslog_result_ua_pass_per_min" logTimeMin 1
      let c3 := c3.HashIncrby "accesslog_result_ua_statistic" uaFamily 1
      URIFilter env (AddRefererList { s with redisConn3 := c3 } accesslog) accesslog

/-- The function `DoFilter` of `filter.go`. -/
def DoFilter (env : Env) (s : Store) (accesslog : AccessLog) : Int × Store :=
  UserAgentFilter env s accesslog

/-- The three global connections of `Filter`: `redisConn1` holds the queue
`accesslog`, `redisConn2` is the one handed to `DoFilter` and `redisConn3`
holds the counters. -/
structure Globals where
  redisConn1 : Redis
  redisConn2 : Redis
  redisConn3 : Redis

/-- One iteration of the loop of `Filter`: the body of its `for`. -/
def Filter.iteration (env : Env) (g : Globals) : Globals :=
  let popped := g.redisConn1.BlockListRightPop "accesslog" 5
  let accesslogLine := popped.1.2
  if accesslogLine = "" then
    { g with redisConn1 := popped.2 }
  else
    let accesslog := env.GetLog accesslogLine
    let logTimeMin := env.LogTimeMinString accesslog
    let c3 := g.redisConn3.HashIncrby "accesslog_result_total_request_per_min" logTimeMin 1
    let filterResult := DoFilter env (Store.mk g.redisConn2 c3) accesslog
    let c3 :=
      if filterResult.1 = YES then
        filterResult.2.redisConn3.HashIncrby "accesslog_result_vppv_effective_per_min"
          (env.LogTimeMinString accesslog) 1
      else filterResult.2.redisConn3
    { redisConn1 := popped.2, redisConn2 := filterResult.2.redisConn, redisConn3 := c3 }

/-- The loop of `Filter` after its connections are opened, run for a number of
iterations; the loop of the source has no exit. -/
def Filter (env : Env) : Nat → Globals → Globals
  | 0, g => g
  | n + 1, g => Filter env n (Filter.iteration env g)

/-! ## A concrete environment and concrete events -/

/-- Splits a line at the tab characters. -/
def splitTabs : List Char → List Char → List String
  | acc, [] => [String.mk acc.reverse]
  | acc, c :: cs => if c = '\t' then String.mk acc.reverse :: splitTabs [] cs
                    else splitTabs (c :: acc) cs

/-- A tab-separated line format, a minute bucket that is the first sixteen
characters of the timestamp, and a classifier that knows one browser. -/
def demoEnv : Env where
  GetLog := fun line =>
    match splitTabs [] line.data with
    | [a, h, u, c, ua, r, g, t] =>
      { RemoteAddr := a, Hostname := h, RequestURI := u, HttpCode := c, UserAgent := ua,
        Referer := r, GUID := g, LogTime := t }
    | _ => { RemoteAddr := "", Hostname := "", RequestURI := "", HttpCode := "",
             UserAgent := "", Referer := "", GUID := "", LogTime := "" }
  LogString := fun a =>
    a.RemoteAddr ++ "\t" ++ a.Hostname ++ "\t" ++ a.RequestURI ++ "\t" ++ a.HttpCode ++ "\t"
      ++ a.UserAgent ++ "\t" ++ a.Referer ++ "\t" ++ a.GUID ++ "\t" ++ a.LogTime
  LogTimeMinString := fun a => String.mk (a.LogTime.data.take 16)
  Parse := fun ua => if Contains ua "Firefox" then "Firefox" else ""
  unicodeLower := fun c => c

/-- Event B of the scenarios: a page view by a browser, arriving from another
site. -/
def evB : AccessLog :=
  { RemoteAddr := "10.0.0.7", Hostname := "shanghai.anjuke.com",
    RequestURI := "/prop/view/123", HttpCode := "200",
    UserAgent := "Mozilla/5.0 Firefox/25.0", Referer := "http://example.com/x",
    GUID := "-", LogTime := "2013-11-20 10:15:42" }

/-- A later page view of the same client, from the own domain. -/
def evB2 : AccessLog :=
  { evB with RequestURI := "/prop/view/456", Referer := "http://my.anjuke.com/home",
             LogTime := "2013-11-20 10:16:03" }

/-- A trigger of the same client: a request to the confirmation origin. -/
def evT : AccessLog :=
  { evB with Hostname := "s.anjuke.com", RequestURI := "/st?p=1", Referer := "-",
             LogTime := "2013-11-20 10:17:30" }

/-- The trigger sent by a crawler. -/
def evTbot : AccessLog :=
  { evT with UserAgent := "Mozilla/5.0 (compatible; YandexBot/3.0)" }

/-- A request to the confirmation origin whose path is a tracked page. -/
def evTprop : AccessLog :=
  { evT with RequestURI := "/prop/view/9" }

/-- A store in which the client of `evB` is a member of `WhiteList`. -/
def whiteStore : Store :=
  AddWhiteList Store.empty evB

/-- The store that buffers `evB2`, whose referer is the own domain. -/
def ownStore : Store :=
  AddWatchingList demoEnv Store.empty evB2

/-! ## Observers used in the statements -/

/-- The calls made on a connection between two of its states. -/
def newCalls (before after : Redis) : List Call :=
  after.calls.drop before.calls.length

/-- The reply of a call when it is a `ListLeftPop`. -/
def Call.popped : Call → Option String
  | Call.ListLeftPop _ reply => some reply
  | _ => none

/-- The lines popped by a sequence of calls, in the order of the calls. -/
def poppedLines (cs : List Call) : List String :=
  cs.filterMap Call.popped

/-- Whether a call is a `HashIncrby` on the hash table `ht`. -/
def Call.onTable (ht : String) : Call → Bool
  | Call.HashIncrby t _ _ => t == ht
  | _ => false

/-- Whether the referer of an entry is the own domain: it contains
`my.anjuke.com`. -/
def ownDomain (accesslog : AccessLog) : Bool :=
  Contains accesslog.Referer "my.anjuke.com"

/-- Whether the referer of an entry is present and is not the own domain. -/
def qualifies (accesslog : AccessLog) : Bool :=
  !ownDomain accesslog && accesslog.Referer != "-"

/-- Whether an event gets past the user-agent stage. -/
def passesUA (env : Env) (accesslog : AccessLog) : Prop :=
  accesslog.UserAgent ≠ "-" ∧ Contains (ToLower env accesslog.UserAgent) "bot" = false ∧
    Contains (ToLower env accesslog.UserAgent) "spider" = false ∧
    env.Parse accesslog.UserAgent ≠ ""

/-- The store after the bookkeeping of the user-agent stage for an event
that gets past it: `ua_pass`, `ua_statistic` and `AddRefererList`. -/
def afterUA (env : Env) (s : Store) (accesslog : AccessLog) : Store :=
  let c3 := s.redisConn3.HashIncrby "accesslog_result_ua_pass_per_min"
    (env.LogTimeMinString accesslog) 1
  let c3 := c3.HashIncrby "accesslog_result_ua_statistic"
    (ToLower env (env.Parse accesslog.UserAgent)) 1
  AddRefererList { s with redisConn3 := c3 } accesslog

/-- The effect of one iteration of the loop of `ProcessWatchingList` on the
connection of the counters, for the popped line. -/
def judgeEntry (env : Env) (c3 : Redis) (line : String) : Redis :=
  let w := env.GetLog line
  let m := env.LogTimeMinString w
  let c :=
    if ownDomain w then c3.HashIncrby "accesslog_result_vppv_from_my_per_min" m 1
    else if w.Referer ≠ "-" then c3.HashIncrby "accesslog_result_vppv_effective_per_min" m 1
    else c3.HashIncrby "accesslog_result_vppv_no_referer_per_min" m 1
  c.HashIncrby "accesslog_result_vppv_watching_per_min" m (-1)

/-- The calls one iteration of the loop of `ProcessWatchingList` makes on the
connection of the counters, for the popped line. -/
def entryCalls (env : Env) (line : String) : List Call :=
  let w := env.GetLog line
  let m := env.LogTimeMinString w
  [ (if ownDomain w then Call.HashIncrby "accesslog_result_vppv_from_my_per_min" m 1
     else if w.Referer ≠ "-" then Call.HashIncrby "accesslog_result_vppv_effective_per_min" m 1
     else Call.HashIncrby "accesslog_result_vppv_no_referer_per_min" m 1),
    Call.HashIncrby "accesslog_result_vppv_watching_per_min" m (-1) ]

/-- The calls the whole loop makes on the connection of the counters. -/
def drainCalls (env : Env) : List String → List Call
  | [] => []
  | line :: rest => entryCalls env line ++ drainCalls env rest

/-- The connection of the lists after popping all of `L` from `key`. -/
def popAll (r : Redis) (key : String) (L : List String) : Redis :=
  { r with
    lists := fun k => if k = key then (r.lists k).drop L.length else r.lists k
    calls := r.calls ++ L.map (Call.ListLeftPop key) }

/-- The events of a run: `DoFilter` on each in turn. -/
def runFilter (env : Env) (s : Store) (events : List AccessLog) : Store :=
  events.foldl (fun st e => (DoFilter env st e).2) s

/-- No client is a member of both `WatchingList` and `WhiteList`. -/
def SetsDisjoint (s : Store) : Prop :=
  ∀ c : String, ¬ (s.redisConn.sets "WatchingList" c = true ∧
    s.redisConn.sets "WhiteList" c = true)

/-- Whether a status is a three-digit decimal code. -/
def threeDigit (code : String) : Bool :=
  match code.data with
  | [a, b, c] => a.isDigit && b.isDigit && c.isDigit
  | _ => false

/-- Whether a status is in the 2xx class: three decimal digits, the first of
them `2`. -/
def in2xxClass (code : String) : Bool :=
  match code.data with
  | [a, b, c] => a == '2' && b.isDigit && c.isDigit
  | _ => false

/-- The rule for the verdict Bot: the user agent is `-`, or contains `bot` or
`spider` after lower-casing, or the classifier returns the empty family. -/
def botRule (env : Env) (accesslog : AccessLog) : Prop :=
  accesslog.UserAgent = "-" ∨ Contains (ToLower env accesslog.UserAgent) "bot" = true ∨
    Contains (ToLower env accesslog.UserAgent) "spider" = true ∨
    env.Parse accesslog.UserAgent = ""

/-- The rule for the verdict Bot can be evaluated. -/
instance botRule.decide (env : Env) (accesslog : AccessLog) :
    Decidable (botRule env accesslog) := by
  unfold botRule
  infer_instance

/-- The rule for the verdict Human: not Bot, the path begins with
`/prop/view/`, the status is in the 2xx class and the client is a member of
`WhiteList`. -/
def humanRule (env : Env) (s : Store) (accesslog : AccessLog) : Prop :=
  ¬ botRule env accesslog ∧ (∃ rest : String, accesslog.RequestURI = "/prop/view/" ++ rest) ∧
    in2xxClass accesslog.HttpCode = true ∧
    s.redisConn.sets "WhiteList" accesslog.RemoteAddr = true

/-- The number of lines buffered in the watching list of the client `c` whose
own minute, that of the parsed line, is `m`. -/
def bufferedFor (env : Env) (s : Store) (m c : String) : Nat :=
  (s.redisConn.lists ("WL_" ++ c)).countP (fun l => env.LogTimeMinString (env.GetLog l) == m)

/-- The number of lines with minute `m` buffered across the watching lists of
the clients in `clients`. -/
def bufferedAt (env : Env) (s : Store) (clients : Finset String) (m : String) : Nat :=
  clients.sum (bufferedFor env s m)

/-- The clients of a sequence of events. -/
def clientsOf (events : List AccessLog) : Finset String :=
  (events.map AccessLog.RemoteAddr).toFinset

/-- The invariant of a run over the clients `S`: every non-empty list is the
watching list of a client in `S`, and `vppv_watching` at every minute is the
number of lines buffered for that minute. -/
def WatchingInv (env : Env) (S : Finset String) (s : Store) : Prop :=
  (∀ k, s.redisConn.lists k ≠ [] → ∃ c ∈ S, k = "WL_" ++ c) ∧
  ∀ m, s.redisConn3.hashes "accesslog_result_vppv_watching_per_min" m =
    (bufferedAt env s S m : Int)

/-- Makes the call on a connection again when it is a `HashIncrby`, the only
wrapper the pipeline calls on the connection of the counters. -/
def Redis.replayCall (c : Redis) : Call → Redis
  | Call.HashIncrby ht field increment => c.HashIncrby ht field increment
  | _ => c

/-- Makes a sequence of calls on a connection, in order. -/
def Redis.replay (c : Redis) (calls : List Call) : Redis :=
  calls.foldl Redis.replayCall c

/-- Whether a call is a `HashIncrby` on a hash table other than
`total_request`. -/
def Call.stageIncr : Call → Bool
  | Call.HashIncrby ht _ _ => decide (ht ≠ "accesslog_result_total_request_per_min")
  | _ => false

/-- The connections when the queue `accesslog` holds the serialised `evB`. -/
def queuedB : Globals :=
  { redisConn1 := Redis.empty.ListLeftPush "accesslog" (demoEnv.LogString evB)
    redisConn2 := Redis.empty
    redisConn3 := Redis.empty }

/-- The connections when the queue `accesslog` holds the serialised `evB` and
the client of `evB` is in `WhiteList`. -/
def queuedWhiteB : Globals :=
  { redisConn1 := Redis.empty.ListLeftPush "accesslog" (demoEnv.LogString evB)
    redisConn2 := whiteStore.redisConn
    redisConn3 := Redis.empty }

/-! ## Keys -/

theorem startsWithChars_append (p x : List Char) : startsWithChars p (p ++ x) = true := by
  induction p with
  | nil => simp [startsWithChars]
  | cons c cs ih => simp [startsWithChars, ih]

theorem append_ne_of_startsWith (p x k : String)
    (h : startsWithChars p.data k.data = false) : p ++ x ≠ k := by
  intro heq
  subst heq
  rw [String.data_append, startsWithChars_append] at h
  exact Bool.noConfusion h

theorem ne_append_of_startsWith (p x k : String)
    (h : startsWithChars p.data k.data = false) : k ≠ p ++ x :=
  fun heq => append_ne_of_startsWith p x k h heq.symm

@[simp] theorem WL_ne_WatchingList (a : String) : ("WatchingList" = "WL_" ++ a) = False :=
  eq_false (ne_append_of_startsWith _ _ _ (by decide))

@[simp] theorem WL_ne_WhiteList (a : String) : ("WhiteList" = "WL_" ++ a) = False :=
  eq_false (ne_append_of_startsWith _ _ _ (by decide))

@[simp] theorem Referer_ne_WatchingList (a : String) :
    ("WatchingList" = "Referer_" ++ a) = False :=
  eq_false (ne_append_of_startsWith _ _ _ (by decide))

@[simp] theorem Referer_ne_WhiteList (a : String) : ("WhiteList" = "Referer_" ++ a) = False :=
  eq_false (ne_append_of_startsWith _ _ _ (by decide))

@[simp] theorem WL_ne_Referer (a b : String) : ("WL_" ++ a = "Referer_" ++ b) = False := by
  apply eq_false
  intro h
  have h2 : (("WL_" ++ a).data).head? = (("Referer_" ++ b).data).head? := by rw [h]
  have h3 : some 'W' = some 'R' := h2
  exact absurd h3 (by decide)

/-! ## The loop of `ProcessWatchingList` -/

theorem Redis.ext_fields (r r2 : Redis) (h1 : r.hashes = r2.hashes) (h2 : r.lists = r2.lists)
    (h3 : r.sets = r2.sets) (h4 : r.calls = r2.calls) : r = r2 := by
  cases r; cases r2; simp at *; exact ⟨h1, h2, h3, h4⟩

theorem popAll_nil (r : Redis) (key : String) : popAll r key [] = r := by
  apply Redis.ext_fields <;> simp [popAll]

theorem popAll_cons (r : Redis) (key item : String) (rest : List String)
    (h : r.lists key = item :: rest) :
    popAll (r.ListLeftPop key).2 key rest = popAll r key (item :: rest) := by
  apply Redis.ext_fields
  · simp [popAll, Redis.ListLeftPop, h]
  · funext k
    by_cases hk : k = key
    · subst hk; simp [popAll, Redis.ListLeftPop, h]
    · simp [popAll, Redis.ListLeftPop, h, hk]
  · simp [popAll, Redis.ListLeftPop, h]
  · simp [popAll, Redis.ListLeftPop, h]

theorem ListLeftPop_cons (r : Redis) (key item : String) (rest : List String)
    (h : r.lists key = item :: rest) : (r.ListLeftPop key).1 = item := by
  simp [Redis.ListLeftPop, h]

theorem ListLeftPop_lists (r : Redis) (key item : String) (rest : List String)
    (h : r.lists key = item :: rest) : (r.ListLeftPop key).2.lists key = rest := by
  simp [Redis.ListLeftPop, h]

theorem RefererFilter_redisConn (env : Env) (s : Store) (w : AccessLog) :
    (RefererFilter env s w).2.redisConn = s.redisConn := by
  unfold RefererFilter
  split_ifs <;> rfl

theorem RefererFilter_verdict (env : Env) (s : Store) (w : AccessLog) :
    (RefererFilter env s w).1 = if qualifies w = true then YES else NO := by
  unfold RefererFilter qualifies ownDomain
  split_ifs with h1 h2 h3 h4 h5 <;> simp_all

theorem RefererFilter_judge (env : Env) (s : Store) (line : String) :
    ((if (RefererFilter env s (env.GetLog line)).1 = YES then
        (RefererFilter env s (env.GetLog line)).2.redisConn3.HashIncrby
          "accesslog_result_vppv_effective_per_min" (env.LogTimeMinString (env.GetLog line)) 1
      else (RefererFilter env s (env.GetLog line)).2.redisConn3).HashIncrby
        "accesslog_result_vppv_watching_per_min" (env.LogTimeMinString (env.GetLog line)) (-1))
      = judgeEntry env s.redisConn3 line := by
  unfold RefererFilter judgeEntry ownDomain
  split_ifs with h1 h2 <;> simp_all [YES, NO]

theorem loop_eq (env : Env) (a : AccessLog) :
    ∀ (L : List String) (s : Store) (t : Bool),
      s.redisConn.lists ("WL_" ++ a.RemoteAddr) = L →
      ProcessWatchingList.loop env a L.length s t =
        ({ redisConn := popAll s.redisConn ("WL_" ++ a.RemoteAddr) L
           redisConn3 := L.foldl (judgeEntry env) s.redisConn3 },
         t || L.any (fun l => qualifies (env.GetLog l))) := by
  intro L
  induction L with
  | nil =>
    intro s t _
    simp [ProcessWatchingList.loop, popAll_nil]
  | cons item rest ih =>
    intro s t h
    simp only [List.length_cons, ProcessWatchingList.loop]
    rw [ListLeftPop_cons _ _ item rest h, ih]
    · rw [RefererFilter_redisConn, RefererFilter_judge, RefererFilter_verdict]
      simp only [popAll_cons _ _ item rest h, List.foldl_cons, List.any_cons]
      by_cases hq : qualifies (env.GetLog item) = true
      · simp [hq]
      · simp [hq, YES, NO]
    · rw [RefererFilter_redisConn]
      exact ListLeftPop_lists _ _ item rest h

/-- The store `ProcessWatchingList` leaves for the list `L` of the client,
before the decision on `WhiteList`. -/
theorem ProcessWatchingList_eq (env : Env) (s : Store) (a : AccessLog) :
    ProcessWatchingList env s a =
      (if (s.redisConn.lists ("WL_" ++ a.RemoteAddr)).any (fun l => qualifies (env.GetLog l))
        then AddWhiteList
          (DelRefererList (DelWatchingList
            { redisConn := popAll (s.redisConn.ListLen ("WL_" ++ a.RemoteAddr)).2
                ("WL_" ++ a.RemoteAddr) (s.redisConn.lists ("WL_" ++ a.RemoteAddr))
              redisConn3 := (s.redisConn.lists ("WL_" ++ a.RemoteAddr)).foldl (judgeEntry env)
                s.redisConn3 } a) a) a
        else
          (DelRefererList (DelWatchingList
            { redisConn := popAll (s.redisConn.ListLen ("WL_" ++ a.RemoteAddr)).2
                ("WL_" ++ a.RemoteAddr) (s.redisConn.lists ("WL_" ++ a.RemoteAddr))
              redisConn3 := (s.redisConn.lists ("WL_" ++ a.RemoteAddr)).foldl (judgeEntry env)
                s.redisConn3 } a) a)) := by
  unfold ProcessWatchingList
  have hlen : (s.redisConn.ListLen ("WL_" ++ a.RemoteAddr)).1.toNat =
      (s.redisConn.lists ("WL_" ++ a.RemoteAddr)).length := by
    simp [Redis.ListLen]
  have hl : (s.redisConn.ListLen ("WL_" ++ a.RemoteAddr)).2.lists ("WL_" ++ a.RemoteAddr) =
      s.redisConn.lists ("WL_" ++ a.RemoteAddr) := rfl
  have hloop := loop_eq env a (s.redisConn.lists ("WL_" ++ a.RemoteAddr))
    { redisConn := (s.redisConn.ListLen ("WL_" ++ a.RemoteAddr)).2, redisConn3 := s.redisConn3 }
    false hl
  simp only [hlen, hloop]
  simp

theorem ProcessWatchingList_redisConn3 (env : Env) (s : Store) (a : AccessLog) :
    (ProcessWatchingList env s a).redisConn3 =
      (s.redisConn.lists ("WL_" ++ a.RemoteAddr)).foldl (judgeEntry env) s.redisConn3 := by
  rw [ProcessWatchingList_eq]
  split_ifs <;> rfl

theorem ProcessWatchingList_lists (env : Env) (s : Store) (a : AccessLog) (k : String) :
    (ProcessWatchingList env s a).redisConn.lists k =
      if k = "WL_" ++ a.RemoteAddr ∨ k = "Referer_" ++ a.RemoteAddr then []
      else s.redisConn.lists k := by
  rw [ProcessWatchingList_eq]
  by_cases hq : (s.redisConn.lists ("WL_" ++ a.RemoteAddr)).any
      (fun l => qualifies (env.GetLog l)) = true
  · rw [if_pos hq]
    by_cases h1 : k = "WL_" ++ a.RemoteAddr
    · simp [AddWhiteList, DelRefererList, DelWatchingList, Redis.SetAdd, Redis.SetRem,
        Redis.KeyDel, popAll, Redis.ListLen, h1]
    · by_cases h2 : k = "Referer_" ++ a.RemoteAddr
      · simp [AddWhiteList, DelRefererList, DelWatchingList, Redis.SetAdd,
          Redis.SetRem, Redis.KeyDel, popAll, Redis.ListLen, h2]
      · simp [AddWhiteList, DelRefererList, DelWatchingList, Redis.SetAdd,
          Redis.SetRem, Redis.KeyDel, popAll, Redis.ListLen, h1, h2]
  · rw [if_neg hq]
    by_cases h1 : k = "WL_" ++ a.RemoteAddr
    · simp [DelRefererList, DelWatchingList, Redis.SetAdd, Redis.SetRem,
        Redis.KeyDel, popAll, Redis.ListLen, h1]
    · by_cases h2 : k = "Referer_" ++ a.RemoteAddr
      · simp [DelRefererList, DelWatchingList, Redis.SetAdd,
          Redis.SetRem, Redis.KeyDel, popAll, Redis.ListLen, h2]
      · simp [DelRefererList, DelWatchingList, Redis.SetAdd,
          Redis.SetRem, Redis.KeyDel, popAll, Redis.ListLen, h1, h2]

theorem ProcessWatchingList_WatchingList (env : Env) (s : Store) (a : AccessLog) (c : String) :
    (ProcessWatchingList env s a).redisConn.sets "WatchingList" c =
      if c = a.RemoteAddr then false else s.redisConn.sets "WatchingList" c := by
  rw [ProcessWatchingList_eq]
  by_cases hq : (s.redisConn.lists ("WL_" ++ a.RemoteAddr)).any
      (fun l => qualifies (env.GetLog l)) = true
  · rw [if_pos hq]
    by_cases h1 : c = a.RemoteAddr
    · simp [AddWhiteList, DelRefererList, DelWatchingList, Redis.SetAdd, Redis.SetRem,
        Redis.KeyDel, popAll, Redis.ListLen, h1]
    · simp [AddWhiteList, DelRefererList, DelWatchingList, Redis.SetAdd, Redis.SetRem,
        Redis.KeyDel, popAll, Redis.ListLen, h1]
  · rw [if_neg hq]
    by_cases h1 : c = a.RemoteAddr
    · simp [DelRefererList, DelWatchingList, Redis.SetAdd, Redis.SetRem,
        Redis.KeyDel, popAll, Redis.ListLen, h1]
    · simp [DelRefererList, DelWatchingList, Redis.SetAdd, Redis.SetRem,
        Redis.KeyDel, popAll, Redis.ListLen, h1]

theorem ProcessWatchingList_WhiteList (env : Env) (s : Store) (a : AccessLog) (c : String) :
    (ProcessWatchingList env s a).redisConn.sets "WhiteList" c =
      ((decide (c = a.RemoteAddr) &&
          (s.redisConn.lists ("WL_" ++ a.RemoteAddr)).any (fun l => qualifies (env.GetLog l)))
        || s.redisConn.sets "WhiteList" c) := by
  rw [ProcessWatchingList_eq]
  by_cases hq : (s.redisConn.lists ("WL_" ++ a.RemoteAddr)).any
      (fun l => qualifies (env.GetLog l)) = true
  · rw [if_pos hq, hq]
    by_cases h1 : c = a.RemoteAddr
    · simp [AddWhiteList, DelRefererList, DelWatchingList, Redis.SetAdd, Redis.SetRem,
        Redis.KeyDel, popAll, Redis.ListLen, h1]
    · simp [AddWhiteList, DelRefererList, DelWatchingList, Redis.SetAdd, Redis.SetRem,
        Redis.KeyDel, popAll, Redis.ListLen, h1]
  · rw [if_neg hq]
    have hq2 : (s.redisConn.lists ("WL_" ++ a.RemoteAddr)).any
      (fun l => qualifies (env.GetLog l)) = false := by simpa using hq
    rw [hq2]
    simp [DelRefererList, DelWatchingList, Redis.SetAdd, Redis.SetRem,
      Redis.KeyDel, popAll, Redis.ListLen]

theorem ProcessWatchingList_calls (env : Env) (s : Store) (a : AccessLog) :
    ∃ tail : List Call, poppedLines tail = [] ∧
      (ProcessWatchingList env s a).redisConn.calls =
        s.redisConn.calls ++
          (Call.ListLen ("WL_" ++ a.RemoteAddr)
              (s.redisConn.lists ("WL_" ++ a.RemoteAddr)).length ::
            (s.redisConn.lists ("WL_" ++ a.RemoteAddr)).map
              (Call.ListLeftPop ("WL_" ++ a.RemoteAddr))) ++ tail := by
  rw [ProcessWatchingList_eq]
  by_cases hq : (s.redisConn.lists ("WL_" ++ a.RemoteAddr)).any
      (fun l => qualifies (env.GetLog l)) = true
  · rw [if_pos hq]
    refine ⟨[Call.SetRem "WatchingList" a.RemoteAddr, Call.KeyDel ("WL_" ++ a.RemoteAddr),
      Call.SetRem "RefererList" a.RemoteAddr, Call.KeyDel ("Referer_" ++ a.RemoteAddr),
      Call.SetAdd "WhiteList" a.RemoteAddr], rfl, ?_⟩
    simp [AddWhiteList, DelRefererList, DelWatchingList, Redis.SetAdd, Redis.SetRem,
      Redis.KeyDel, popAll, Redis.ListLen]
  · rw [if_neg hq]
    refine ⟨[Call.SetRem "WatchingList" a.RemoteAddr, Call.KeyDel ("WL_" ++ a.RemoteAddr),
      Call.SetRem "RefererList" a.RemoteAddr, Call.KeyDel ("Referer_" ++ a.RemoteAddr)], rfl, ?_⟩
    simp [AddWhiteList, DelRefererList, DelWatchingList, Redis.SetAdd, Redis.SetRem,
      Redis.KeyDel, popAll, Redis.ListLen]

/-! ## The counters after the loop -/

theorem newCalls_append (r r2 : Redis) (delta : List Call) (h : r2.calls = r.calls ++ delta) :
    newCalls r r2 = delta := by
  simp [newCalls, h]

theorem entry_cases (w : AccessLog) :
    (ownDomain w = true ∧ qualifies w = false) ∨
    (ownDomain w = false ∧ w.Referer = "-" ∧ qualifies w = false) ∨
    (ownDomain w = false ∧ w.Referer ≠ "-" ∧ qualifies w = true) := by
  unfold qualifies
  by_cases h1 : ownDomain w = true
  · left; simp [h1]
  · by_cases h2 : w.Referer = "-"
    · right; left; simp [h1, h2]
    · right; right; simp [h1, h2]

theorem judgeEntry_calls (env : Env) (c : Redis) (line : String) :
    (judgeEntry env c line).calls = c.calls ++ entryCalls env line := by
  rcases entry_cases (env.GetLog line) with ⟨h1, h2⟩ | ⟨h1, h2, _⟩ | ⟨h1, h2, _⟩ <;>
    simp [judgeEntry, entryCalls, h1, h2, Redis.HashIncrby]

theorem foldl_judgeEntry_calls (env : Env) :
    ∀ (L : List String) (c : Redis),
      (L.foldl (judgeEntry env) c).calls = c.calls ++ drainCalls env L := by
  intro L
  induction L with
  | nil => intro c; simp [drainCalls]
  | cons line rest ih =>
    intro c
    simp [List.foldl_cons, ih, judgeEntry_calls, drainCalls]

theorem entryCalls_watching (env : Env) (line : String) :
    (entryCalls env line).filter (Call.onTable "accesslog_result_vppv_watching_per_min") =
      [Call.HashIncrby "accesslog_result_vppv_watching_per_min"
        (env.LogTimeMinString (env.GetLog line)) (-1)] := by
  rcases entry_cases (env.GetLog line) with ⟨h1, h2⟩ | ⟨h1, h2, _⟩ | ⟨h1, h2, _⟩ <;>
    simp [entryCalls, h1, h2, List.filter, Call.onTable]

theorem entryCalls_effective (env : Env) (line : String) :
    (entryCalls env line).filter (Call.onTable "accesslog_result_vppv_effective_per_min") =
      if qualifies (env.GetLog line) = true then
        [Call.HashIncrby "accesslog_result_vppv_effective_per_min"
          (env.LogTimeMinString (env.GetLog line)) 1]
      else [] := by
  rcases entry_cases (env.GetLog line) with ⟨h1, h2⟩ | ⟨h1, h2, _⟩ | ⟨h1, h2, _⟩ <;>
    simp [entryCalls, qualifies, h1, h2, List.filter, Call.onTable]

theorem drainCalls_watching (env : Env) (L : List String) :
    (drainCalls env L).filter (Call.onTable "accesslog_result_vppv_watching_per_min") =
      L.map (fun l => Call.HashIncrby "accesslog_result_vppv_watching_per_min"
        (env.LogTimeMinString (env.GetLog l)) (-1)) := by
  induction L with
  | nil => rfl
  | cons line rest ih =>
    simp only [drainCalls, List.filter_append, ih, List.map_cons, entryCalls_watching]
    rfl

theorem drainCalls_effective (env : Env) (L : List String) :
    (drainCalls env L).filter (Call.onTable "accesslog_result_vppv_effective_per_min") =
      (L.filter (fun l => qualifies (env.GetLog l))).map
        (fun l => Call.HashIncrby "accesslog_result_vppv_effective_per_min"
          (env.LogTimeMinString (env.GetLog l)) 1) := by
  induction L with
  | nil => rfl
  | cons line rest ih =>
    simp only [drainCalls, List.filter_append, ih, entryCalls_effective]
    by_cases hq : qualifies (env.GetLog line) = true
    · simp [hq, List.filter_cons]
    · simp [hq, List.filter_cons]

theorem judgeEntry_watching (env : Env) (c : Redis) (line m : String) :
    (judgeEntry env c line).hashes "accesslog_result_vppv_watching_per_min" m =
      c.hashes "accesslog_result_vppv_watching_per_min" m -
        (if env.LogTimeMinString (env.GetLog line) = m then 1 else 0) := by
  by_cases hm : m = env.LogTimeMinString (env.GetLog line)
  · subst hm
    rcases entry_cases (env.GetLog line) with ⟨h1, h2⟩ | ⟨h1, h2, _⟩ | ⟨h1, h2, _⟩ <;>
      simp [judgeEntry, h1, h2, Redis.HashIncrby] <;> ring
  · have hm2 : ¬ env.LogTimeMinString (env.GetLog line) = m := fun h => hm h.symm
    rcases entry_cases (env.GetLog line) with ⟨h1, h2⟩ | ⟨h1, h2, _⟩ | ⟨h1, h2, _⟩ <;>
      simp [judgeEntry, h1, h2, Redis.HashIncrby, hm, hm2]

theorem judgeEntry_effective (env : Env) (c : Redis) (line m : String) :
    (judgeEntry env c line).hashes "accesslog_result_vppv_effective_per_min" m =
      c.hashes "accesslog_result_vppv_effective_per_min" m +
        (if qualifies (env.GetLog line) = true ∧ env.LogTimeMinString (env.GetLog line) = m
          then 1 else 0) := by
  by_cases hm : m = env.LogTimeMinString (env.GetLog line)
  · subst hm
    rcases entry_cases (env.GetLog line) with ⟨h1, h2⟩ | ⟨h1, h2, _⟩ | ⟨h1, h2, _⟩ <;>
      simp [judgeEntry, qualifies, h1, h2, Redis.HashIncrby]
  · have hm2 : ¬ env.LogTimeMinString (env.GetLog line) = m := fun h => hm h.symm
    rcases entry_cases (env.GetLog line) with ⟨h1, h2⟩ | ⟨h1, h2, _⟩ | ⟨h1, h2, _⟩ <;>
      simp [judgeEntry, qualifies, h1, h2, Redis.HashIncrby, hm, hm2]

theorem foldl_judgeEntry_watching (env : Env) (m : String) :
    ∀ (L : List String) (c : Redis),
      (L.foldl (judgeEntry env) c).hashes "accesslog_result_vppv_watching_per_min" m =
        c.hashes "accesslog_result_vppv_watching_per_min" m -
          (L.countP (fun l => env.LogTimeMinString (env.GetLog l) == m) : Nat) := by
  intro L
  induction L with
  | nil => intro c; simp
  | cons line rest ih =>
    intro c
    rw [List.foldl_cons, ih, judgeEntry_watching, List.countP_cons]
    by_cases hm : env.LogTimeMinString (env.GetLog line) = m
    · simp [hm]; ring
    · simp [hm]

theorem foldl_judgeEntry_effective (env : Env) (m : String) :
    ∀ (L : List String) (c : Redis),
      (L.foldl (judgeEntry env) c).hashes "accesslog_result_vppv_effective_per_min" m =
        c.hashes "accesslog_result_vppv_effective_per_min" m +
          (L.countP (fun l => qualifies (env.GetLog l) &&
            env.LogTimeMinString (env.GetLog l) == m) : Nat) := by
  intro L
  induction L with
  | nil => intro c; simp
  | cons line rest ih =>
    intro c
    rw [List.foldl_cons, ih, judgeEntry_effective, List.countP_cons]
    by_cases hq : qualifies (env.GetLog line) = true ∧ env.LogTimeMinString (env.GetLog line) = m
    · simp [hq.1, hq.2]; ring
    · rw [if_neg hq]
      have : (qualifies (env.GetLog line) &&
          env.LogTimeMinString (env.GetLog line) == m) = false := by
        simpa using hq
      simp [this]

theorem foldl_AddWatchingList_lists (env : Env) (c : String) :
    ∀ (es : List AccessLog) (s : Store), (∀ e ∈ es, e.RemoteAddr = c) →
      (es.foldl (AddWatchingList env) s).redisConn.lists ("WL_" ++ c) =
        (es.map env.LogString).reverse ++ s.redisConn.lists ("WL_" ++ c) := by
  intro es
  induction es with
  | nil => intro s _; simp
  | cons e rest ih =>
    intro s h
    have he : e.RemoteAddr = c := h e (List.mem_cons_self _ _)
    rw [List.foldl_cons, ih _ (fun x hx => h x (List.mem_cons_of_mem _ hx))]
    simp [AddWatchingList, Redis.ListLeftPush, Redis.SetAdd, he]

theorem poppedLines_append (xs ys : List Call) :
    poppedLines (xs ++ ys) = poppedLines xs ++ poppedLines ys := by
  simp [poppedLines, List.filterMap_append]

theorem poppedLines_map (key : String) (L : List String) :
    poppedLines (L.map (Call.ListLeftPop key)) = L := by
  induction L with
  | nil => rfl
  | cons l rest ih =>
    simp only [poppedLines] at ih
    simp [poppedLines, List.filterMap_cons, Call.popped, ih]

theorem ProcessWatchingList_popped (env : Env) (s : Store) (a : AccessLog) :
    poppedLines (newCalls s.redisConn (ProcessWatchingList env s a).redisConn) =
      s.redisConn.lists ("WL_" ++ a.RemoteAddr) := by
  obtain ⟨tail, htail, hcalls⟩ := ProcessWatchingList_calls env s a
  rw [List.append_assoc] at hcalls
  rw [newCalls_append _ _ _ hcalls, poppedLines_append, htail]
  simp only [List.append_nil]
  have : poppedLines (Call.ListLen ("WL_" ++ a.RemoteAddr)
        (s.redisConn.lists ("WL_" ++ a.RemoteAddr)).length ::
      (s.redisConn.lists ("WL_" ++ a.RemoteAddr)).map (Call.ListLeftPop ("WL_" ++ a.RemoteAddr)))
      = poppedLines ((s.redisConn.lists ("WL_" ++ a.RemoteAddr)).map
          (Call.ListLeftPop ("WL_" ++ a.RemoteAddr))) := by
    simp [poppedLines, List.filterMap_cons, Call.popped]
  rw [this, poppedLines_map]

theorem ProcessWatchingList_newCalls3 (env : Env) (s : Store) (a : AccessLog) :
    newCalls s.redisConn3 (ProcessWatchingList env s a).redisConn3 =
      drainCalls env (s.redisConn.lists ("WL_" ++ a.RemoteAddr)) := by
  apply newCalls_append
  rw [ProcessWatchingList_redisConn3, foldl_judgeEntry_calls]

/-! ## The stages -/

theorem ne_of_data_append (p rest : List Char) (t k : String) (hd : t.data = p ++ rest)
    (h : startsWithChars p k.data = false) : k ≠ t := by
  intro heq
  subst heq
  rw [hd, startsWithChars_append] at h
  exact Bool.noConfusion h

@[simp] theorem code_ne_watching (c : String) :
    ("accesslog_result_vppv_watching_per_min" =
      "accesslog_result_vppv_code_" ++ c ++ "_per_min") = False :=
  eq_false (ne_of_data_append "accesslog_result_vppv_code_".data (c.data ++ "_per_min".data) _ _
    (by simp [String.data_append]) (by decide))

@[simp] theorem code_ne_effective (c : String) :
    ("accesslog_result_vppv_effective_per_min" =
      "accesslog_result_vppv_code_" ++ c ++ "_per_min") = False :=
  eq_false (ne_of_data_append "accesslog_result_vppv_code_".data (c.data ++ "_per_min".data) _ _
    (by simp [String.data_append]) (by decide))

theorem DoFilter_bot (env : Env) (s : Store) (e : AccessLog)
    (h : e.UserAgent = "-" ∨ Contains (ToLower env e.UserAgent) "bot" = true ∨
      Contains (ToLower env e.UserAgent) "spider" = true) :
    DoFilter env s e =
      (NO, Store.mk s.redisConn (s.redisConn3.HashIncrby "accesslog_result_ua_not_pass_per_min"
        (env.LogTimeMinString e) 1)) := by
  unfold DoFilter UserAgentFilter
  simp only [if_pos h]

theorem DoFilter_passesUA (env : Env) (s : Store) (e : AccessLog) (h : passesUA env e) :
    DoFilter env s e = URIFilter env (afterUA env s e) e := by
  obtain ⟨h1, h2, h3, h4⟩ := h
  unfold DoFilter UserAgentFilter afterUA
  simp [h1, h2, h3, h4]

theorem afterUA_lists (env : Env) (s : Store) (e : AccessLog) :
    (afterUA env s e).redisConn.lists = s.redisConn.lists := rfl

theorem afterUA_WatchingList (env : Env) (s : Store) (e : AccessLog) (c : String) :
    (afterUA env s e).redisConn.sets "WatchingList" c = s.redisConn.sets "WatchingList" c := by
  simp [afterUA, AddRefererList, Redis.SetAdd]

theorem afterUA_WhiteList (env : Env) (s : Store) (e : AccessLog) (c : String) :
    (afterUA env s e).redisConn.sets "WhiteList" c = s.redisConn.sets "WhiteList" c := by
  simp [afterUA, AddRefererList, Redis.SetAdd]

theorem afterUA_watching (env : Env) (s : Store) (e : AccessLog) (m : String) :
    (afterUA env s e).redisConn3.hashes "accesslog_result_vppv_watching_per_min" m =
      s.redisConn3.hashes "accesslog_result_vppv_watching_per_min" m := by
  simp [afterUA, AddRefererList, Redis.HashIncrby]

theorem afterUA_effective (env : Env) (s : Store) (e : AccessLog) (m : String) :
    (afterUA env s e).redisConn3.hashes "accesslog_result_vppv_effective_per_min" m =
      s.redisConn3.hashes "accesslog_result_vppv_effective_per_min" m := by
  simp [afterUA, AddRefererList, Redis.HashIncrby]

theorem URIFilter_untracked (env : Env) (s : Store) (e : AccessLog)
    (hpath : MatchString "^/prop/view/" e.RequestURI = false) :
    URIFilter env s e = (UNKNOWN, Analysis env s e) := by
  unfold URIFilter
  simp [hpath]

theorem URIFilter_white (env : Env) (s : Store) (e : AccessLog)
    (hpath : MatchString "^/prop/view/" e.RequestURI = true)
    (hcode : MatchString "^2" e.HttpCode = true)
    (hwhite : s.redisConn.sets "WhiteList" e.RemoteAddr = true) :
    URIFilter env s e =
      (YES,
       (Store.mk (s.redisConn.SetIsMember "WhiteList" e.RemoteAddr).2
         ((s.redisConn3.HashIncrby "accesslog_result_vppv_total_per_min"
            (env.LogTimeMinString e) 1).HashIncrby
            ("accesslog_result_vppv_code_" ++ e.HttpCode ++ "_per_min")
            (env.LogTimeMinString e) 1))) := by
  unfold URIFilter HttpCodeFilter WhiteIpFilter
  simp [hpath, hcode, hwhite, Redis.SetIsMember]

theorem URIFilter_enqueue (env : Env) (s : Store) (e : AccessLog)
    (hpath : MatchString "^/prop/view/" e.RequestURI = true)
    (hcode : MatchString "^2" e.HttpCode = true)
    (hwhite : s.redisConn.sets "WhiteList" e.RemoteAddr = false) :
    URIFilter env s e =
      (UNKNOWN, AddWatchingList env
       (Store.mk (s.redisConn.SetIsMember "WhiteList" e.RemoteAddr).2
         ((s.redisConn3.HashIncrby "accesslog_result_vppv_total_per_min"
            (env.LogTimeMinString e) 1).HashIncrby
            ("accesslog_result_vppv_code_" ++ e.HttpCode ++ "_per_min")
            (env.LogTimeMinString e) 1)) e) := by
  unfold URIFilter HttpCodeFilter WhiteIpFilter
  simp [hpath, hcode, hwhite, Redis.SetIsMember]

theorem URIFilter_other_code (env : Env) (s : Store) (e : AccessLog)
    (hpath : MatchString "^/prop/view/" e.RequestURI = true)
    (hcode : MatchString "^2" e.HttpCode = false) :
    URIFilter env s e =
      (UNKNOWN,
       Store.mk s.redisConn ((s.redisConn3.HashIncrby "accesslog_result_vppv_total_per_min"
            (env.LogTimeMinString e) 1).HashIncrby
            ("accesslog_result_vppv_code_" ++ e.HttpCode ++ "_per_min")
            (env.LogTimeMinString e) 1)) := by
  unfold URIFilter HttpCodeFilter
  simp [hpath, hcode]

theorem DoFilter_unparsed (env : Env) (s : Store) (e : AccessLog)
    (h : ¬ (e.UserAgent = "-" ∨ Contains (ToLower env e.UserAgent) "bot" = true ∨
      Contains (ToLower env e.UserAgent) "spider" = true))
    (hparse : env.Parse e.UserAgent = "") :
    DoFilter env s e =
      (NO, Store.mk s.redisConn (s.redisConn3.HashIncrby "accesslog_result_ua_not_pass_per_min"
        (env.LogTimeMinString e) 1)) := by
  unfold DoFilter UserAgentFilter
  simp only [if_neg h, hparse, if_true]

theorem passesUA_of_not (env : Env) (e : AccessLog)
    (h : ¬ (e.UserAgent = "-" ∨ Contains (ToLower env e.UserAgent) "bot" = true ∨
      Contains (ToLower env e.UserAgent) "spider" = true))
    (hparse : ¬ env.Parse e.UserAgent = "") : passesUA env e := by
  unfold passesUA
  refine ⟨fun h1 => h (Or.inl h1), ?_, ?_, hparse⟩
  · cases hb : Contains (ToLower env e.UserAgent) "bot"
    · rfl
    · exact absurd (Or.inr (Or.inl hb)) h
  · cases hb : Contains (ToLower env e.UserAgent) "spider"
    · rfl
    · exact absurd (Or.inr (Or.inr hb)) h

theorem DoFilter_trigger (env : Env) (s : Store) (e : AccessLog)
    (hhost : MatchString "^s.anjuke.com" e.Hostname = true)
    (hua : passesUA env e)
    (hpath : MatchString "^/prop/view/" e.RequestURI = false) :
    DoFilter env s e = (UNKNOWN, ProcessWatchingList env (afterUA env s e) e) := by
  rw [DoFilter_passesUA env s e hua, URIFilter_untracked env _ e hpath]
  simp [Analysis, hhost]

theorem DoFilter_enqueue (env : Env) (s : Store) (e : AccessLog)
    (hua : passesUA env e)
    (hpath : MatchString "^/prop/view/" e.RequestURI = true)
    (hcode : MatchString "^2" e.HttpCode = true)
    (hwhite : s.redisConn.sets "WhiteList" e.RemoteAddr = false) :
    (DoFilter env s e).1 = UNKNOWN ∧
    (DoFilter env s e).2.redisConn.lists ("WL_" ++ e.RemoteAddr) =
      env.LogString e :: s.redisConn.lists ("WL_" ++ e.RemoteAddr) ∧
    (∀ c, (DoFilter env s e).2.redisConn.sets "WatchingList" c =
      (decide (c = e.RemoteAddr) || s.redisConn.sets "WatchingList" c)) ∧
    (∀ c, (DoFilter env s e).2.redisConn.sets "WhiteList" c = s.redisConn.sets "WhiteList" c) ∧
    (∀ m, (DoFilter env s e).2.redisConn3.hashes "accesslog_result_vppv_watching_per_min" m =
      s.redisConn3.hashes "accesslog_result_vppv_watching_per_min" m +
        (if m = env.LogTimeMinString e then 1 else 0)) ∧
    (∀ m, (DoFilter env s e).2.redisConn3.hashes "accesslog_result_vppv_effective_per_min" m =
      s.redisConn3.hashes "accesslog_result_vppv_effective_per_min" m) := by
  have hw : (afterUA env s e).redisConn.sets "WhiteList" e.RemoteAddr = false := by
    rw [afterUA_WhiteList]; exact hwhite
  rw [DoFilter_passesUA env s e hua, URIFilter_enqueue env _ e hpath hcode hw]
  refine ⟨rfl, ?_, ?_, ?_, ?_, ?_⟩
  · simp [AddWatchingList, Redis.ListLeftPush, Redis.SetAdd, Redis.SetIsMember, afterUA,
      AddRefererList]
  · intro c
    by_cases hc : c = e.RemoteAddr <;>
      simp [AddWatchingList, Redis.ListLeftPush, Redis.SetAdd, Redis.SetIsMember, afterUA,
        AddRefererList, hc]
  · intro c
    simp [AddWatchingList, Redis.ListLeftPush, Redis.SetAdd, Redis.SetIsMember, afterUA,
      AddRefererList]
  · intro m
    by_cases hm : m = env.LogTimeMinString e <;>
      simp [AddWatchingList, Redis.HashIncrby, afterUA, AddRefererList, hm]
  · intro m
    simp [AddWatchingList, Redis.HashIncrby, afterUA, AddRefererList]

theorem DoFilter_white (env : Env) (s : Store) (e : AccessLog)
    (hua : passesUA env e)
    (hpath : MatchString "^/prop/view/" e.RequestURI = true)
    (hcode : MatchString "^2" e.HttpCode = true)
    (hwhite : s.redisConn.sets "WhiteList" e.RemoteAddr = true) :
    (DoFilter env s e).1 = YES ∧
    (DoFilter env s e).2.redisConn.lists = s.redisConn.lists ∧
    (∀ c, (DoFilter env s e).2.redisConn.sets "WatchingList" c =
      s.redisConn.sets "WatchingList" c) ∧
    (∀ c, (DoFilter env s e).2.redisConn.sets "WhiteList" c = s.redisConn.sets "WhiteList" c) ∧
    (∀ m, (DoFilter env s e).2.redisConn3.hashes "accesslog_result_vppv_watching_per_min" m =
      s.redisConn3.hashes "accesslog_result_vppv_watching_per_min" m) ∧
    newCalls s.redisConn (DoFilter env s e).2.redisConn =
      [Call.SetAdd "RefererList" e.RemoteAddr,
       Call.SetAdd ("Referer_" ++ e.RemoteAddr) ("http://" ++ e.Hostname ++ e.RequestURI),
       Call.SetIsMember "WhiteList" e.RemoteAddr 1] := by
  have hw : (afterUA env s e).redisConn.sets "WhiteList" e.RemoteAddr = true := by
    rw [afterUA_WhiteList]; exact hwhite
  rw [DoFilter_passesUA env s e hua, URIFilter_white env _ e hpath hcode hw]
  refine ⟨rfl, rfl, ?_, ?_, ?_, ?_⟩
  · intro c
    simp [Redis.SetAdd, Redis.SetIsMember, afterUA, AddRefererList]
  · intro c
    simp [Redis.SetAdd, Redis.SetIsMember, afterUA, AddRefererList]
  · intro m
    simp [Redis.HashIncrby, afterUA, AddRefererList]
  · simp [newCalls, Redis.SetAdd, Redis.SetIsMember, afterUA, AddRefererList, hwhite]

/-! ## The claims -/

/-- C1 (as amended): resolution drains a client's watching list newest-first.
When the events `es` are enqueued for one client in that order on top of the
entries already buffered, `ProcessWatchingList` for that client pops the
serialised events in the reverse of the order of enqueueing, then the older
entries, and its decrements of `vppv_watching` follow the same order. -/
theorem C1_drains_newest_first (env : Env) (s : Store) (es : List AccessLog)
    (trigger : AccessLog) (h : ∀ e ∈ es, e.RemoteAddr = trigger.RemoteAddr) :
    poppedLines (newCalls (es.foldl (AddWatchingList env) s).redisConn
        (ProcessWatchingList env (es.foldl (AddWatchingList env) s) trigger).redisConn) =
      (es.map env.LogString).reverse ++ s.redisConn.lists ("WL_" ++ trigger.RemoteAddr) ∧
    (newCalls (es.foldl (AddWatchingList env) s).redisConn3
        (ProcessWatchingList env (es.foldl (AddWatchingList env) s) trigger).redisConn3).filter
        (Call.onTable "accesslog_result_vppv_watching_per_min") =
      ((es.map env.LogString).reverse ++ s.redisConn.lists ("WL_" ++ trigger.RemoteAddr)).map
        (fun l => Call.HashIncrby "accesslog_result_vppv_watching_per_min"
          (env.LogTimeMinString (env.GetLog l)) (-1)) := by
  constructor
  · rw [ProcessWatchingList_popped, foldl_AddWatchingList_lists env _ es s h]
  · rw [ProcessWatchingList_newCalls3, drainCalls_watching,
      foldl_AddWatchingList_lists env _ es s h]

/-- C1, witness: two events of one client enqueued on an empty store. -/
theorem C1_drains_newest_first_witness :
    (∀ e ∈ [evB, evB2], e.RemoteAddr = evT.RemoteAddr) ∧
    poppedLines (newCalls ([evB, evB2].foldl (AddWatchingList demoEnv) Store.empty).redisConn
        (ProcessWatchingList demoEnv ([evB, evB2].foldl (AddWatchingList demoEnv) Store.empty)
          evT).redisConn) =
      ([evB, evB2].map demoEnv.LogString).reverse ++
        Store.empty.redisConn.lists ("WL_" ++ evT.RemoteAddr) :=
  ⟨by decide, (C1_drains_newest_first demoEnv Store.empty [evB, evB2] evT (by decide)).1⟩

/-- C1, counterexample: `evB` is enqueued before `evB2`, and the lines
`ProcessWatchingList` pops are `evB2` then `evB`, not `evB` then `evB2`. -/
theorem C1_oldest_first_fails :
    poppedLines (newCalls ([evB, evB2].foldl (AddWatchingList demoEnv) Store.empty).redisConn
        (ProcessWatchingList demoEnv ([evB, evB2].foldl (AddWatchingList demoEnv) Store.empty)
          evT).redisConn) =
      [demoEnv.LogString evB2, demoEnv.LogString evB] ∧
    poppedLines (newCalls ([evB, evB2].foldl (AddWatchingList demoEnv) Store.empty).redisConn
        (ProcessWatchingList demoEnv ([evB, evB2].foldl (AddWatchingList demoEnv) Store.empty)
          evT).redisConn) ≠
      [demoEnv.LogString evB, demoEnv.LogString evB2] := by
  decide

/-- C2 (as amended): an event whose hostname matches `^s.anjuke.com`, that
gets past the user-agent stage and whose path does not begin with
`/prop/view/` causes resolution of its client's watching list, whatever its
status code: `DoFilter` returns Unknown, the store it leaves is the one
`ProcessWatchingList` leaves after the bookkeeping of the user-agent stage, the
watching list of the client is empty and the client is not in `WatchingList`. -/
theorem C2_trigger_resolves (env : Env) (s : Store) (e : AccessLog)
    (hhost : MatchString "^s.anjuke.com" e.Hostname = true)
    (hua : passesUA env e)
    (hpath : MatchString "^/prop/view/" e.RequestURI = false) :
    DoFilter env s e = (UNKNOWN, ProcessWatchingList env (afterUA env s e) e) ∧
    (DoFilter env s e).2.redisConn.lists ("WL_" ++ e.RemoteAddr) = [] ∧
    (DoFilter env s e).2.redisConn.sets "WatchingList" e.RemoteAddr = false := by
  have h := DoFilter_trigger env s e hhost hua hpath
  refine ⟨h, ?_, ?_⟩
  · rw [h]
    simp [ProcessWatchingList_lists]
  · rw [h]
    simp [ProcessWatchingList_WatchingList]

/-- C2, witness: the trigger `evT` after `evB` was buffered. -/
theorem C2_trigger_resolves_witness :
    MatchString "^s.anjuke.com" evT.Hostname = true ∧ passesUA demoEnv evT ∧
    MatchString "^/prop/view/" evT.RequestURI = false ∧
    (DoFilter demoEnv (DoFilter demoEnv Store.empty evB).2 evT).2.redisConn.lists
      ("WL_" ++ evT.RemoteAddr) = [] :=
  ⟨by decide, by unfold passesUA; decide, by decide,
   (C2_trigger_resolves demoEnv (DoFilter demoEnv Store.empty evB).2 evT (by decide)
      (by unfold passesUA; decide) (by decide)).2.1⟩

/-- C2, counterexample: with `evB` buffered for the client, neither a request
to `s.anjuke.com` by a crawler (verdict Bot) nor one for a path beginning with
`/prop/view/` resolves the watching list: the entry stays buffered and the
client stays in `WatchingList`; for the crawler no call at all is made on the
connection of the lists. -/
theorem C2_every_verdict_fails :
    (MatchString "^s.anjuke.com" evTbot.Hostname = true ∧
      (DoFilter demoEnv (DoFilter demoEnv Store.empty evB).2 evTbot).1 = NO ∧
      (DoFilter demoEnv (DoFilter demoEnv Store.empty evB).2 evTbot).2.redisConn.lists
        ("WL_" ++ evTbot.RemoteAddr) = [demoEnv.LogString evB] ∧
      (DoFilter demoEnv (DoFilter demoEnv Store.empty evB).2 evTbot).2.redisConn.sets
        "WatchingList" evTbot.RemoteAddr = true ∧
      newCalls (DoFilter demoEnv Store.empty evB).2.redisConn
        (DoFilter demoEnv (DoFilter demoEnv Store.empty evB).2 evTbot).2.redisConn = []) ∧
    (MatchString "^s.anjuke.com" evTprop.Hostname = true ∧
      (DoFilter demoEnv (DoFilter demoEnv Store.empty evB).2 evTprop).2.redisConn.lists
        ("WL_" ++ evTprop.RemoteAddr) = [demoEnv.LogString evTprop, demoEnv.LogString evB] ∧
      (DoFilter demoEnv (DoFilter demoEnv Store.empty evB).2 evTprop).2.redisConn.sets
        "WatchingList" evTprop.RemoteAddr = true) := by
  decide

/-- C3: for the N lines buffered for the client of the trigger,
`ProcessWatchingList` makes exactly N decrements of `vppv_watching`, one per
entry in the order of the list and each at the minute of the entry itself, and
exactly k increments of `vppv_effective`, one per entry whose referer is
present and is not the own domain, each at the minute of that entry, with
k at most N; the two counters change by just these amounts. -/
theorem C3_drain_counts (env : Env) (s : Store) (trigger : AccessLog) :
    (newCalls s.redisConn3 (ProcessWatchingList env s trigger).redisConn3).filter
        (Call.onTable "accesslog_result_vppv_watching_per_min") =
      (s.redisConn.lists ("WL_" ++ trigger.RemoteAddr)).map
        (fun l => Call.HashIncrby "accesslog_result_vppv_watching_per_min"
          (env.LogTimeMinString (env.GetLog l)) (-1)) ∧
    ((newCalls s.redisConn3 (ProcessWatchingList env s trigger).redisConn3).filter
        (Call.onTable "accesslog_result_vppv_watching_per_min")).length =
      (s.redisConn.lists ("WL_" ++ trigger.RemoteAddr)).length ∧
    (newCalls s.redisConn3 (ProcessWatchingList env s trigger).redisConn3).filter
        (Call.onTable "accesslog_result_vppv_effective_per_min") =
      ((s.redisConn.lists ("WL_" ++ trigger.RemoteAddr)).filter
          (fun l => qualifies (env.GetLog l))).map
        (fun l => Call.HashIncrby "accesslog_result_vppv_effective_per_min"
          (env.LogTimeMinString (env.GetLog l)) 1) ∧
    ((newCalls s.redisConn3 (ProcessWatchingList env s trigger).redisConn3).filter
        (Call.onTable "accesslog_result_vppv_effective_per_min")).length =
      ((s.redisConn.lists ("WL_" ++ trigger.RemoteAddr)).filter
          (fun l => qualifies (env.GetLog l))).length ∧
    ((s.redisConn.lists ("WL_" ++ trigger.RemoteAddr)).filter
          (fun l => qualifies (env.GetLog l))).length ≤
      (s.redisConn.lists ("WL_" ++ trigger.RemoteAddr)).length ∧
    (∀ m : String,
      (ProcessWatchingList env s trigger).redisConn3.hashes
          "accesslog_result_vppv_watching_per_min" m =
        s.redisConn3.hashes "accesslog_result_vppv_watching_per_min" m -
          ((s.redisConn.lists ("WL_" ++ trigger.RemoteAddr)).countP
            (fun l => env.LogTimeMinString (env.GetLog l) == m) : Nat)) ∧
    (∀ m : String,
      (ProcessWatchingList env s trigger).redisConn3.hashes
          "accesslog_result_vppv_effective_per_min" m =
        s.redisConn3.hashes "accesslog_result_vppv_effective_per_min" m +
          ((s.redisConn.lists ("WL_" ++ trigger.RemoteAddr)).countP
            (fun l => qualifies (env.GetLog l) &&
              env.LogTimeMinString (env.GetLog l) == m) : Nat)) := by
  refine ⟨?_, ?_, ?_, ?_, ?_, ?_, ?_⟩
  · rw [ProcessWatchingList_newCalls3, drainCalls_watching]
  · rw [ProcessWatchingList_newCalls3, drainCalls_watching, List.length_map]
  · rw [ProcessWatchingList_newCalls3, drainCalls_effective]
  · rw [ProcessWatchingList_newCalls3, drainCalls_effective, List.length_map]
  · exact List.length_filter_le _ _
  · intro m
    rw [ProcessWatchingList_redisConn3, foldl_judgeEntry_watching]
  · intro m
    rw [ProcessWatchingList_redisConn3, foldl_judgeEntry_effective]

/-- C4: for an event whose user agent is `-` or contains `bot` or `spider`
after lower-casing, `DoFilter` returns NO and the store changes by one call
only, the increment by 1 of `ua_not_pass` at the minute of the event: the
connection of the sets and lists is untouched, and on the connection of the
counters no other hash field, no list and no set changes. -/
theorem C4_bot_only_ua_not_pass (env : Env) (s : Store) (e : AccessLog)
    (h : e.UserAgent = "-" ∨ Contains (ToLower env e.UserAgent) "bot" = true ∨
      Contains (ToLower env e.UserAgent) "spider" = true) :
    (DoFilter env s e).1 = NO ∧
    (DoFilter env s e).2.redisConn = s.redisConn ∧
    (DoFilter env s e).2.redisConn3 =
      s.redisConn3.HashIncrby "accesslog_result_ua_not_pass_per_min"
        (env.LogTimeMinString e) 1 ∧
    (DoFilter env s e).2.redisConn3.hashes "accesslog_result_ua_not_pass_per_min"
        (env.LogTimeMinString e) =
      s.redisConn3.hashes "accesslog_result_ua_not_pass_per_min" (env.LogTimeMinString e) + 1 ∧
    (∀ ht f : String,
      ¬ (ht = "accesslog_result_ua_not_pass_per_min" ∧ f = env.LogTimeMinString e) →
      (DoFilter env s e).2.redisConn3.hashes ht f = s.redisConn3.hashes ht f) ∧
    (DoFilter env s e).2.redisConn3.lists = s.redisConn3.lists ∧
    (DoFilter env s e).2.redisConn3.sets = s.redisConn3.sets ∧
    newCalls s.redisConn3 (DoFilter env s e).2.redisConn3 =
      [Call.HashIncrby "accesslog_result_ua_not_pass_per_min" (env.LogTimeMinString e) 1] := by
  rw [DoFilter_bot env s e h]
  refine ⟨rfl, rfl, rfl, ?_, ?_, rfl, rfl, ?_⟩
  · simp [Redis.HashIncrby]
  · intro ht f hne
    simp [Redis.HashIncrby, hne]
  · simp [newCalls, Redis.HashIncrby]

/-- C4, witness: the crawler `evTbot` on the store that buffers `evB`; its user
agent contains `bot` only after lower-casing. -/
theorem C4_bot_only_ua_not_pass_witness :
    (evTbot.UserAgent = "-" ∨ Contains (ToLower demoEnv evTbot.UserAgent) "bot" = true ∨
      Contains (ToLower demoEnv evTbot.UserAgent) "spider" = true) ∧
    Contains evTbot.UserAgent "bot" = false ∧
    (DoFilter demoEnv (DoFilter demoEnv Store.empty evB).2 evTbot).1 = NO :=
  ⟨by decide, by decide,
   (C4_bot_only_ua_not_pass demoEnv (DoFilter demoEnv Store.empty evB).2 evTbot
      (by decide)).1⟩

/-- C5: an event that gets past the user-agent stage, whose path begins with
`/prop/view/`, whose status begins with `2` and whose client is a member of
`WhiteList` gets the verdict YES and no watching entry is made: every list,
the set `WatchingList` and the counter `vppv_watching` are unchanged, and the
calls on the connection of the lists are the two of `AddRefererList` and the
membership test. -/
theorem C5_white_is_human (env : Env) (s : Store) (e : AccessLog)
    (hua : passesUA env e)
    (hpath : MatchString "^/prop/view/" e.RequestURI = true)
    (hcode : MatchString "^2" e.HttpCode = true)
    (hwhite : s.redisConn.sets "WhiteList" e.RemoteAddr = true) :
    (DoFilter env s e).1 = YES ∧
    (DoFilter env s e).2.redisConn.lists ("WL_" ++ e.RemoteAddr) =
      s.redisConn.lists ("WL_" ++ e.RemoteAddr) ∧
    (DoFilter env s e).2.redisConn.lists = s.redisConn.lists ∧
    (∀ c, (DoFilter env s e).2.redisConn.sets "WatchingList" c =
      s.redisConn.sets "WatchingList" c) ∧
    (∀ m, (DoFilter env s e).2.redisConn3.hashes "accesslog_result_vppv_watching_per_min" m =
      s.redisConn3.hashes "accesslog_result_vppv_watching_per_min" m) ∧
    newCalls s.redisConn (DoFilter env s e).2.redisConn =
      [Call.SetAdd "RefererList" e.RemoteAddr,
       Call.SetAdd ("Referer_" ++ e.RemoteAddr) ("http://" ++ e.Hostname ++ e.RequestURI),
       Call.SetIsMember "WhiteList" e.RemoteAddr 1] := by
  obtain ⟨h1, h2, h3, _, h5, h6⟩ := DoFilter_white env s e hua hpath hcode hwhite
  exact ⟨h1, by rw [h2], h2, h3, h5, h6⟩

/-- C5, witness: `evB` when its client is already in `WhiteList`. -/
theorem C5_white_is_human_witness :
    passesUA demoEnv evB ∧ MatchString "^/prop/view/" evB.RequestURI = true ∧
    MatchString "^2" evB.HttpCode = true ∧
    whiteStore.redisConn.sets "WhiteList" evB.RemoteAddr = true ∧
    (DoFilter demoEnv whiteStore evB).1 = YES :=
  ⟨by unfold passesUA; decide, by decide, by decide, by decide,
   (C5_white_is_human demoEnv whiteStore evB (by unfold passesUA; decide) (by decide)
      (by decide) (by decide)).1⟩

/-- C6: for an entry whose referer contains `my.anjuke.com`, whatever its
other fields, `RefererFilter` returns NO, never YES, and its one call
increments `vppv_from_my` by 1 at the minute of the entry; and when every
line buffered for the client of the trigger has such a referer,
`ProcessWatchingList` leaves `vppv_effective` unchanged at every minute and
leaves the membership of every client in `WhiteList` unchanged. -/
theorem C6_own_domain_never_human (env : Env) (s : Store) (w trigger : AccessLog)
    (hw : ownDomain w = true)
    (hall : ∀ l ∈ s.redisConn.lists ("WL_" ++ trigger.RemoteAddr),
      ownDomain (env.GetLog l) = true) :
    ((RefererFilter env s w).1 = NO ∧ (RefererFilter env s w).1 ≠ YES ∧
      (RefererFilter env s w).2.redisConn3.hashes "accesslog_result_vppv_from_my_per_min"
          (env.LogTimeMinString w) =
        s.redisConn3.hashes "accesslog_result_vppv_from_my_per_min"
          (env.LogTimeMinString w) + 1 ∧
      newCalls s.redisConn3 (RefererFilter env s w).2.redisConn3 =
        [Call.HashIncrby "accesslog_result_vppv_from_my_per_min" (env.LogTimeMinString w) 1] ∧
      (RefererFilter env s w).2.redisConn = s.redisConn) ∧
    ((∀ m, (ProcessWatchingList env s trigger).redisConn3.hashes
          "accesslog_result_vppv_effective_per_min" m =
        s.redisConn3.hashes "accesslog_result_vppv_effective_per_min" m) ∧
      (newCalls s.redisConn3 (ProcessWatchingList env s trigger).redisConn3).filter
        (Call.onTable "accesslog_result_vppv_effective_per_min") = [] ∧
      (∀ c, (ProcessWatchingList env s trigger).redisConn.sets "WhiteList" c =
        s.redisConn.sets "WhiteList" c)) := by
  have hnone : ∀ l ∈ s.redisConn.lists ("WL_" ++ trigger.RemoteAddr),
      qualifies (env.GetLog l) = false := by
    intro l hl
    simp [qualifies, hall l hl]
  have hfilter : (s.redisConn.lists ("WL_" ++ trigger.RemoteAddr)).filter
      (fun l => qualifies (env.GetLog l)) = [] := by
    rw [List.filter_eq_nil_iff]
    intro l hl
    simp [hnone l hl]
  have hany : (s.redisConn.lists ("WL_" ++ trigger.RemoteAddr)).any
      (fun l => qualifies (env.GetLog l)) = false := by
    rw [List.any_eq_false]
    intro l hl
    simp [hnone l hl]
  have hcount : ∀ m, (s.redisConn.lists ("WL_" ++ trigger.RemoteAddr)).countP
      (fun l => qualifies (env.GetLog l) && env.LogTimeMinString (env.GetLog l) == m) = 0 := by
    intro m
    rw [List.countP_eq_zero]
    intro l hl
    simp [hnone l hl]
  have hw2 : Contains w.Referer "my.anjuke.com" = true := hw
  refine ⟨⟨?_, ?_, ?_, ?_, ?_⟩, ?_, ?_, ?_⟩
  · simp [RefererFilter, hw2]
  · simp [RefererFilter, hw2, YES, NO]
  · simp [RefererFilter, hw2, Redis.HashIncrby]
  · simp [RefererFilter, hw2, Redis.HashIncrby, newCalls]
  · simp [RefererFilter, hw2]
  · intro m
    rw [ProcessWatchingList_redisConn3, foldl_judgeEntry_effective, hcount m]
    simp
  · rw [ProcessWatchingList_newCalls3, drainCalls_effective, hfilter]
    rfl
  · intro c
    rw [ProcessWatchingList_WhiteList, hany]
    simp

/-- C6, witness: the entry `evB2`, from the own domain, buffered alone. -/
theorem C6_own_domain_never_human_witness :
    ownDomain evB2 = true ∧
    (∀ l ∈ ownStore.redisConn.lists ("WL_" ++ evT.RemoteAddr),
      ownDomain (demoEnv.GetLog l) = true) ∧
    (RefererFilter demoEnv ownStore evB2).1 = NO :=
  ⟨by decide, by decide,
   (C6_own_domain_never_human demoEnv ownStore evB2 evT (by decide) (by decide)).1.1⟩

/-- C7: after `ProcessWatchingList` for a client, from every store, the
watching list of the client is empty, the client is not a member of
`WatchingList`, and the client is a member of `WhiteList` exactly when it was
one before or some drained entry has a referer that is present and is not the
own domain. -/
theorem C7_after_resolution (env : Env) (s : Store) (trigger : AccessLog) :
    (ProcessWatchingList env s trigger).redisConn.lists ("WL_" ++ trigger.RemoteAddr) = [] ∧
    (ProcessWatchingList env s trigger).redisConn.sets "WatchingList" trigger.RemoteAddr
      = false ∧
    ((ProcessWatchingList env s trigger).redisConn.sets "WhiteList" trigger.RemoteAddr = true ↔
      (s.redisConn.sets "WhiteList" trigger.RemoteAddr = true ∨
        ∃ l ∈ s.redisConn.lists ("WL_" ++ trigger.RemoteAddr),
          (env.GetLog l).Referer ≠ "-" ∧ ownDomain (env.GetLog l) = false)) := by
  refine ⟨?_, ?_, ?_⟩
  · simp [ProcessWatchingList_lists]
  · simp [ProcessWatchingList_WatchingList]
  · rw [ProcessWatchingList_WhiteList]
    simp only [decide_True, Bool.true_and, Bool.or_eq_true, List.any_eq_true, qualifies,
      Bool.and_eq_true, Bool.not_eq_true', bne_iff_ne, ne_eq]
    constructor
    · rintro (⟨l, hl, h1, h2⟩ | h)
      · exact Or.inr ⟨l, hl, h2, h1⟩
      · exact Or.inl h
    · rintro (h | ⟨l, hl, h1, h2⟩)
      · exact Or.inr h
      · exact Or.inl ⟨l, hl, h2, h1⟩

/-- C8: an event that gets past the user-agent stage, whose path begins with
`/prop/view/`, whose status begins with `2` and whose client is not a member
of `WhiteList` gets the verdict UNKNOWN and is enqueued: afterwards the client
is a member of `WatchingList`, the watching list of the client is the
serialised event followed by the former list, so one entry longer, and
`vppv_watching` at the minute of the event is 1 higher than before. -/
theorem C8_unknown_is_enqueued (env : Env) (s : Store) (e : AccessLog)
    (hua : passesUA env e)
    (hpath : MatchString "^/prop/view/" e.RequestURI = true)
    (hcode : MatchString "^2" e.HttpCode = true)
    (hwhite : s.redisConn.sets "WhiteList" e.RemoteAddr = false) :
    (DoFilter env s e).1 = UNKNOWN ∧
    (DoFilter env s e).2.redisConn.sets "WatchingList" e.RemoteAddr = true ∧
    (DoFilter env s e).2.redisConn.lists ("WL_" ++ e.RemoteAddr) =
      env.LogString e :: s.redisConn.lists ("WL_" ++ e.RemoteAddr) ∧
    ((DoFilter env s e).2.redisConn.lists ("WL_" ++ e.RemoteAddr)).length =
      (s.redisConn.lists ("WL_" ++ e.RemoteAddr)).length + 1 ∧
    env.LogString e ∈ (DoFilter env s e).2.redisConn.lists ("WL_" ++ e.RemoteAddr) ∧
    (DoFilter env s e).2.redisConn3.hashes "accesslog_result_vppv_watching_per_min"
        (env.LogTimeMinString e) =
      s.redisConn3.hashes "accesslog_result_vppv_watching_per_min"
        (env.LogTimeMinString e) + 1 := by
  obtain ⟨h1, h2, h3, _, h5, _⟩ := DoFilter_enqueue env s e hua hpath hcode hwhite
  refine ⟨h1, ?_, h2, ?_, ?_, ?_⟩
  · rw [h3]; simp
  · rw [h2]; simp
  · rw [h2]; simp
  · rw [h5]; simp

/-- C8, witness: scenario B, `evB` on the empty store, where `vppv_watching`
at the minute of `evB` becomes 1. -/
theorem C8_unknown_is_enqueued_witness :
    passesUA demoEnv evB ∧ MatchString "^/prop/view/" evB.RequestURI = true ∧
    MatchString "^2" evB.HttpCode = true ∧
    Store.empty.redisConn.sets "WhiteList" evB.RemoteAddr = false ∧
    (DoFilter demoEnv Store.empty evB).2.redisConn3.hashes
        "accesslog_result_vppv_watching_per_min" (demoEnv.LogTimeMinString evB) =
      Store.empty.redisConn3.hashes "accesslog_result_vppv_watching_per_min"
        (demoEnv.LogTimeMinString evB) + 1 ∧
    Store.empty.redisConn3.hashes "accesslog_result_vppv_watching_per_min"
        (demoEnv.LogTimeMinString evB) + 1 = 1 :=
  ⟨by unfold passesUA; decide, by decide, by decide, by decide,
   (C8_unknown_is_enqueued demoEnv Store.empty evB (by unfold passesUA; decide) (by decide)
      (by decide) (by decide)).2.2.2.2.2, by decide⟩

/-- C9: scenario C from the empty store.  Event B gets past the user-agent
stage, has path `/prop/view/123`, status `200` and referer
`http://example.com/x`; the trigger is of the same client, its hostname
matches `^s.anjuke.com`, it gets past the user-agent stage and its path does
not begin with `/prop/view/`; parsing the serialised B gives B.  After both,
`vppv_effective` at the minute of B is 1, `vppv_watching` at the minute of B
is 0, the client is in `WhiteList` and not in `WatchingList`, whatever the
timestamp of the trigger. -/
theorem C9_scenario_C (env : Env) (B T : AccessLog)
    (hBua : passesUA env B)
    (hBpath : B.RequestURI = "/prop/view/123")
    (hBcode : B.HttpCode = "200")
    (hBref : B.Referer = "http://example.com/x")
    (hclient : T.RemoteAddr = B.RemoteAddr)
    (hThost : MatchString "^s.anjuke.com" T.Hostname = true)
    (hTua : passesUA env T)
    (hTpath : MatchString "^/prop/view/" T.RequestURI = false)
    (hparse : env.GetLog (env.LogString B) = B) :
    (DoFilter env (DoFilter env Store.empty B).2 T).2.redisConn3.hashes
        "accesslog_result_vppv_effective_per_min" (env.LogTimeMinString B) = 1 ∧
    (DoFilter env (DoFilter env Store.empty B).2 T).2.redisConn3.hashes
        "accesslog_result_vppv_watching_per_min" (env.LogTimeMinString B) = 0 ∧
    (DoFilter env (DoFilter env Store.empty B).2 T).2.redisConn.sets
        "WhiteList" B.RemoteAddr = true ∧
    (DoFilter env (DoFilter env Store.empty B).2 T).2.redisConn.sets
        "WatchingList" B.RemoteAddr = false := by
  have hp : MatchString "^/prop/view/" B.RequestURI = true := by rw [hBpath]; decide
  have hc : MatchString "^2" B.HttpCode = true := by rw [hBcode]; decide
  have hq : qualifies B = true := by
    unfold qualifies ownDomain
    rw [hBref]; decide
  obtain ⟨_, h2, _, _, h5, h6⟩ :=
    DoFilter_enqueue env Store.empty B hBua hp hc rfl
  have hlist : (afterUA env (DoFilter env Store.empty B).2 T).redisConn.lists
      ("WL_" ++ T.RemoteAddr) = [env.LogString B] := by
    rw [afterUA_lists, hclient, h2]; rfl
  rw [DoFilter_trigger env _ T hThost hTua hTpath]
  refine ⟨?_, ?_, ?_, ?_⟩
  · show (ProcessWatchingList env _ T).redisConn3.hashes _ _ = 1
    rw [ProcessWatchingList_redisConn3, foldl_judgeEntry_effective, hlist, afterUA_effective, h6]
    simp [hparse, hq, Store.empty, Redis.empty]
  · show (ProcessWatchingList env _ T).redisConn3.hashes _ _ = 0
    rw [ProcessWatchingList_redisConn3, foldl_judgeEntry_watching, hlist, afterUA_watching, h5]
    simp [hparse, Store.empty, Redis.empty]
  · show (ProcessWatchingList env _ T).redisConn.sets _ _ = true
    rw [ProcessWatchingList_WhiteList, hlist]
    simp [hparse, hq, hclient]
  · show (ProcessWatchingList env _ T).redisConn.sets _ _ = false
    rw [ProcessWatchingList_WatchingList]
    simp [hclient]

/-- C9, witness: `evB` then `evT`, whose minute differs from that of `evB`. -/
theorem C9_scenario_C_witness :
    passesUA demoEnv evB ∧ passesUA demoEnv evT ∧
    demoEnv.GetLog (demoEnv.LogString evB) = evB ∧
    demoEnv.LogTimeMinString evT ≠ demoEnv.LogTimeMinString evB ∧
    (DoFilter demoEnv (DoFilter demoEnv Store.empty evB).2 evT).2.redisConn3.hashes
        "accesslog_result_vppv_effective_per_min" (demoEnv.LogTimeMinString evB) = 1 :=
  ⟨by unfold passesUA; decide, by unfold passesUA; decide, by decide, by decide,
   (C9_scenario_C demoEnv evB evT (by unfold passesUA; decide) rfl rfl rfl rfl (by decide)
      (by unfold passesUA; decide) (by decide) (by decide)).1⟩

theorem DoFilter_disjoint (env : Env) (s : Store) (e : AccessLog) (h : SetsDisjoint s) :
    SetsDisjoint (DoFilter env s e).2 := by
  by_cases hbot : (e.UserAgent = "-" ∨ Contains (ToLower env e.UserAgent) "bot" = true ∨
      Contains (ToLower env e.UserAgent) "spider" = true)
  · rw [DoFilter_bot env s e hbot]; exact h
  by_cases hparse : env.Parse e.UserAgent = ""
  · rw [DoFilter_unparsed env s e hbot hparse]; exact h
  have hua := passesUA_of_not env e hbot hparse
  cases hpath : MatchString "^/prop/view/" e.RequestURI
  · rw [DoFilter_passesUA env s e hua, URIFilter_untracked env _ e hpath]
    unfold Analysis
    split_ifs
    · intro c
      show ¬ ((ProcessWatchingList env _ e).redisConn.sets "WatchingList" c = true ∧
        (ProcessWatchingList env _ e).redisConn.sets "WhiteList" c = true)
      rw [ProcessWatchingList_WatchingList, ProcessWatchingList_WhiteList,
        afterUA_WatchingList, afterUA_WhiteList]
      by_cases hc : c = e.RemoteAddr
      · simp [hc]
      · have := h c
        simpa [hc] using this
    · intro c
      show ¬ ((afterUA env s e).redisConn.sets "WatchingList" c = true ∧
        (afterUA env s e).redisConn.sets "WhiteList" c = true)
      rw [afterUA_WatchingList, afterUA_WhiteList]
      exact h c
  · cases hcode : MatchString "^2" e.HttpCode
    · rw [DoFilter_passesUA env s e hua, URIFilter_other_code env _ e hpath hcode]
      intro c
      show ¬ ((afterUA env s e).redisConn.sets "WatchingList" c = true ∧
        (afterUA env s e).redisConn.sets "WhiteList" c = true)
      rw [afterUA_WatchingList, afterUA_WhiteList]
      exact h c
    · cases hwhite : s.redisConn.sets "WhiteList" e.RemoteAddr
      · obtain ⟨_, _, h3, h4, _, _⟩ := DoFilter_enqueue env s e hua hpath hcode hwhite
        intro c
        rw [h3, h4]
        by_cases hc : c = e.RemoteAddr
        · simp [hc, hwhite]
        · have := h c
          simpa [hc] using this
      · obtain ⟨_, _, h3, h4, _, _⟩ := DoFilter_white env s e hua hpath hcode hwhite
        intro c
        rw [h3, h4]
        exact h c

theorem runFilter_disjoint (env : Env) :
    ∀ (events : List AccessLog) (s : Store),
      SetsDisjoint s → SetsDisjoint (runFilter env s events) := by
  intro events
  induction events with
  | nil => intro s h; exact h
  | cons e rest ih =>
    intro s h
    exact ih _ (DoFilter_disjoint env s e h)

/-- C10: `WatchingList` and `WhiteList` stay disjoint.  From a store in which
no client is a member of both sets, the store after `DoFilter` on any event,
resolution included, and the store after any sequence of events have no
client in both sets; so no store reached from the empty store has one. -/
theorem C10_sets_stay_disjoint (env : Env) (s : Store) (e : AccessLog)
    (events : List AccessLog) (h : SetsDisjoint s) :
    SetsDisjoint (DoFilter env s e).2 ∧ SetsDisjoint (runFilter env s events) ∧
    SetsDisjoint (runFilter env Store.empty events) :=
  ⟨DoFilter_disjoint env s e h, runFilter_disjoint env events s h,
   runFilter_disjoint env events Store.empty (fun _ hc => Bool.noConfusion hc.1)⟩

/-- C10, witness: the store that buffers `evB`, then the trigger `evT`, which
moves the client from `WatchingList` to `WhiteList`. -/
theorem C10_sets_stay_disjoint_witness :
    SetsDisjoint (DoFilter demoEnv Store.empty evB).2 ∧
    (DoFilter demoEnv Store.empty evB).2.redisConn.sets "WatchingList" evB.RemoteAddr = true ∧
    SetsDisjoint (DoFilter demoEnv (DoFilter demoEnv Store.empty evB).2 evT).2 :=
  ⟨DoFilter_disjoint demoEnv Store.empty evB (fun _ hc => Bool.noConfusion hc.1), by decide,
   (C10_sets_stay_disjoint demoEnv (DoFilter demoEnv Store.empty evB).2 evT []
      (DoFilter_disjoint demoEnv Store.empty evB (fun _ hc => Bool.noConfusion hc.1))).1⟩

/-! ## The verdict -/

theorem matchHere_literal :
    ∀ (ps cs : List Char), (∀ p ∈ ps, p ≠ '.') →
      (matchHere ps cs = true ↔ ∃ rest, cs = ps ++ rest) := by
  intro ps
  induction ps with
  | nil => intro cs _; simp [matchHere]
  | cons p ps ih =>
    intro cs hlit
    have hp : p ≠ '.' := hlit p (List.mem_cons_self _ _)
    have hps : ∀ q ∈ ps, q ≠ '.' := fun q hq => hlit q (List.mem_cons_of_mem _ hq)
    cases cs with
    | nil => simp [matchHere]
    | cons c cs =>
      simp only [matchHere, if_neg hp, Bool.and_eq_true, beq_iff_eq, ih cs hps,
        List.cons_append, List.cons.injEq]
      constructor
      · rintro ⟨h1, rest, h2⟩
        exact ⟨rest, h1.symm, h2⟩
      · rintro ⟨rest, h1, h2⟩
        exact ⟨h1.symm, rest, h2⟩

theorem MatchString_tracked (uri : String) :
    MatchString "^/prop/view/" uri = true ↔ ∃ rest : String, uri = "/prop/view/" ++ rest := by
  have h := matchHere_literal "/prop/view/".data uri.data (by decide)
  have hm : MatchString "^/prop/view/" uri = matchHere "/prop/view/".data uri.data := rfl
  rw [hm, h]
  constructor
  · rintro ⟨rest, hr⟩
    refine ⟨String.mk rest, String.ext ?_⟩
    rw [hr, String.data_append]
  · rintro ⟨rest, hr⟩
    refine ⟨rest.data, ?_⟩
    rw [hr, String.data_append]

theorem MatchString_2xx (code : String) (h : threeDigit code = true) :
    MatchString "^2" code = in2xxClass code := by
  have hm : MatchString "^2" code = matchHere ['2'] code.data := rfl
  rw [hm]
  unfold threeDigit at h
  unfold in2xxClass
  split at h
  · rename_i a b c hd
    simp only [hd] at *
    simp only [Bool.and_eq_true] at h
    simp [matchHere, h.1.2, h.2, eq_comm]
  · exact absurd h (by simp)

theorem passesUA_iff (env : Env) (e : AccessLog) : passesUA env e ↔ ¬ botRule env e := by
  unfold passesUA botRule
  constructor
  · rintro ⟨h1, h2, h3, h4⟩ (h | h | h | h)
    · exact h1 h
    · rw [h2] at h; exact Bool.noConfusion h
    · rw [h3] at h; exact Bool.noConfusion h
    · exact h4 h
  · intro h
    refine ⟨fun h1 => h (Or.inl h1), ?_, ?_, fun h4 => h (Or.inr (Or.inr (Or.inr h4)))⟩
    · cases hb : Contains (ToLower env e.UserAgent) "bot"
      · rfl
      · exact absurd (Or.inr (Or.inl hb)) h
    · cases hb : Contains (ToLower env e.UserAgent) "spider"
      · rfl
      · exact absurd (Or.inr (Or.inr (Or.inl hb))) h

theorem DoFilter_verdict (env : Env) (s : Store) (e : AccessLog) :
    (DoFilter env s e).1 =
      if botRule env e then NO
      else if MatchString "^/prop/view/" e.RequestURI = true ∧
          MatchString "^2" e.HttpCode = true ∧
          s.redisConn.sets "WhiteList" e.RemoteAddr = true then YES
      else UNKNOWN := by
  by_cases hbot : (e.UserAgent = "-" ∨ Contains (ToLower env e.UserAgent) "bot" = true ∨
      Contains (ToLower env e.UserAgent) "spider" = true)
  · have hb : botRule env e := by
      unfold botRule
      rcases hbot with h | h | h
      · exact Or.inl h
      · exact Or.inr (Or.inl h)
      · exact Or.inr (Or.inr (Or.inl h))
    rw [DoFilter_bot env s e hbot, if_pos hb]
  by_cases hparse : env.Parse e.UserAgent = ""
  · have hb : botRule env e := Or.inr (Or.inr (Or.inr hparse))
    rw [DoFilter_unparsed env s e hbot hparse, if_pos hb]
  have hua := passesUA_of_not env e hbot hparse
  have hnb : ¬ botRule env e := (passesUA_iff env e).1 hua
  rw [if_neg hnb, DoFilter_passesUA env s e hua]
  cases hpath : MatchString "^/prop/view/" e.RequestURI
  · rw [URIFilter_untracked env _ e hpath]
    simp
  · cases hcode : MatchString "^2" e.HttpCode
    · rw [URIFilter_other_code env _ e hpath hcode]
      simp
    · cases hwhite : s.redisConn.sets "WhiteList" e.RemoteAddr
      · have hw : (afterUA env s e).redisConn.sets "WhiteList" e.RemoteAddr = false := by
          rw [afterUA_WhiteList]; exact hwhite
        rw [URIFilter_enqueue env _ e hpath hcode hw]
        simp
      · have hw : (afterUA env s e).redisConn.sets "WhiteList" e.RemoteAddr = true := by
          rw [afterUA_WhiteList]; exact hwhite
        rw [URIFilter_white env _ e hpath hcode hw]
        simp

/-- C11: the verdict of `DoFilter` is determined by the ordered stages.  For
every store and every event whose status is a three-digit decimal code, the
verdict is NO exactly when the user agent is `-`, or contains `bot` or
`spider` after lower-casing, or the classifier returns the empty family; it is
YES exactly when it is not NO by that rule, the path begins with
`/prop/view/`, the status is in the 2xx class and the client is a member of
`WhiteList`; and it is UNKNOWN exactly in every other case. -/
theorem C11_verdict_by_stages (env : Env) (s : Store) (e : AccessLog)
    (hstatus : threeDigit e.HttpCode = true) :
    ((DoFilter env s e).1 = NO ↔ botRule env e) ∧
    ((DoFilter env s e).1 = YES ↔ humanRule env s e) ∧
    ((DoFilter env s e).1 = UNKNOWN ↔ ¬ botRule env e ∧ ¬ humanRule env s e) := by
  rw [DoFilter_verdict]
  unfold humanRule
  rw [← MatchString_tracked, ← MatchString_2xx _ hstatus]
  by_cases hb : botRule env e
  · simp [hb, YES, NO, UNKNOWN]
  · by_cases hh : MatchString "^/prop/view/" e.RequestURI = true ∧
        MatchString "^2" e.HttpCode = true ∧
        s.redisConn.sets "WhiteList" e.RemoteAddr = true
    · simp [hb, hh, YES, NO, UNKNOWN]
    · simp [hb, hh, YES, NO, UNKNOWN]

/-- C11, witness: `evB`, with status `200`, on a store whose `WhiteList` holds
its client, where the verdict is YES. -/
theorem C11_verdict_by_stages_witness :
    threeDigit evB.HttpCode = true ∧ (DoFilter demoEnv whiteStore evB).1 = YES ∧
    humanRule demoEnv whiteStore evB :=
  ⟨by decide, by decide,
   (C11_verdict_by_stages demoEnv whiteStore evB (by decide)).2.1.1 (by decide)⟩

/-! ## The counter of the buffered events -/

theorem WL_injective (x c : String) : "WL_" ++ x = "WL_" ++ c ↔ x = c := by
  constructor
  · intro h
    have h2 := congrArg String.data h
    simp only [String.data_append, List.append_cancel_left_eq] at h2
    exact String.ext h2
  · intro h; rw [h]

theorem sum_change (S : Finset String) (c : String) (hc : c ∈ S) (f g : String → Nat)
    (h : ∀ x ∈ S, x ≠ c → g x = f x) :
    ((S.sum g : Nat) : Int) = ((S.sum f : Nat) : Int) - (f c : Int) + (g c : Int) := by
  have he : (S.erase c).sum g = (S.erase c).sum f :=
    Finset.sum_congr rfl
      (fun x hx => h x (Finset.mem_of_mem_erase hx) (Finset.ne_of_mem_erase hx))
  rw [← Finset.add_sum_erase S f hc, ← Finset.add_sum_erase S g hc, he]
  push_cast
  ring

theorem WatchingInv_of_same (env : Env) (S : Finset String) (s s2 : Store)
    (hl : s2.redisConn.lists = s.redisConn.lists)
    (hw : ∀ m, s2.redisConn3.hashes "accesslog_result_vppv_watching_per_min" m =
      s.redisConn3.hashes "accesslog_result_vppv_watching_per_min" m)
    (h : WatchingInv env S s) : WatchingInv env S s2 := by
  refine ⟨?_, ?_⟩
  · intro k hk
    rw [hl] at hk
    exact h.1 k hk
  · intro m
    rw [hw m, h.2 m]
    simp [bufferedAt, bufferedFor, hl]

theorem WatchingInv_resolve (env : Env) (S : Finset String) (s : Store) (e : AccessLog)
    (hc : e.RemoteAddr ∈ S) (h : WatchingInv env S s) :
    WatchingInv env S (ProcessWatchingList env (afterUA env s e) e) := by
  refine ⟨?_, ?_⟩
  · intro k hk
    rw [ProcessWatchingList_lists] at hk
    by_cases hk2 : k = "WL_" ++ e.RemoteAddr ∨ k = "Referer_" ++ e.RemoteAddr
    · rw [if_pos hk2] at hk; exact absurd rfl hk
    · rw [if_neg hk2, afterUA_lists] at hk
      exact h.1 k hk
  · intro m
    rw [ProcessWatchingList_redisConn3, foldl_judgeEntry_watching, afterUA_watching, h.2 m,
      afterUA_lists]
    have hs := sum_change S e.RemoteAddr hc (bufferedFor env s m)
      (bufferedFor env (ProcessWatchingList env (afterUA env s e) e) m)
      (by
        intro x _ hx
        unfold bufferedFor
        rw [ProcessWatchingList_lists, afterUA_lists]
        have h1 : ¬ ("WL_" ++ x = "WL_" ++ e.RemoteAddr) := fun hh => hx ((WL_injective _ _).1 hh)
        simp [h1])
    have h0 : bufferedFor env (ProcessWatchingList env (afterUA env s e) e) m e.RemoteAddr
        = 0 := by
      unfold bufferedFor
      rw [ProcessWatchingList_lists]
      simp
    unfold bufferedAt
    rw [hs, h0]
    simp [bufferedFor]

theorem DoFilter_enqueue_lists (env : Env) (s : Store) (e : AccessLog)
    (hua : passesUA env e)
    (hpath : MatchString "^/prop/view/" e.RequestURI = true)
    (hcode : MatchString "^2" e.HttpCode = true)
    (hwhite : s.redisConn.sets "WhiteList" e.RemoteAddr = false) (k : String) :
    (DoFilter env s e).2.redisConn.lists k =
      if k = "WL_" ++ e.RemoteAddr then env.LogString e :: s.redisConn.lists k
      else s.redisConn.lists k := by
  have hw : (afterUA env s e).redisConn.sets "WhiteList" e.RemoteAddr = false := by
    rw [afterUA_WhiteList]; exact hwhite
  rw [DoFilter_passesUA env s e hua, URIFilter_enqueue env _ e hpath hcode hw]
  simp [AddWatchingList, Redis.ListLeftPush, Redis.SetAdd, Redis.SetIsMember, afterUA,
    AddRefererList]

theorem WatchingInv_enqueue (env : Env) (S : Finset String) (s : Store) (e : AccessLog)
    (hc : e.RemoteAddr ∈ S) (hparse : env.GetLog (env.LogString e) = e)
    (hua : passesUA env e)
    (hpath : MatchString "^/prop/view/" e.RequestURI = true)
    (hcode : MatchString "^2" e.HttpCode = true)
    (hwhite : s.redisConn.sets "WhiteList" e.RemoteAddr = false)
    (h : WatchingInv env S s) : WatchingInv env S (DoFilter env s e).2 := by
  have hl := DoFilter_enqueue_lists env s e hua hpath hcode hwhite
  obtain ⟨_, _, _, _, h5, _⟩ := DoFilter_enqueue env s e hua hpath hcode hwhite
  refine ⟨?_, ?_⟩
  · intro k hk
    rw [hl] at hk
    by_cases hk2 : k = "WL_" ++ e.RemoteAddr
    · exact ⟨e.RemoteAddr, hc, hk2⟩
    · rw [if_neg hk2] at hk
      exact h.1 k hk
  · intro m
    rw [h5 m, h.2 m]
    have hs := sum_change S e.RemoteAddr hc (bufferedFor env s m)
      (bufferedFor env (DoFilter env s e).2 m)
      (by
        intro x _ hx
        unfold bufferedFor
        rw [hl]
        have h1 : ¬ ("WL_" ++ x = "WL_" ++ e.RemoteAddr) := fun hh => hx ((WL_injective _ _).1 hh)
        simp [h1])
    have h1 : bufferedFor env (DoFilter env s e).2 m e.RemoteAddr =
        bufferedFor env s m e.RemoteAddr + (if m = env.LogTimeMinString e then 1 else 0) := by
      unfold bufferedFor
      rw [hl, if_pos rfl, List.countP_cons, hparse]
      by_cases hm : m = env.LogTimeMinString e
      · simp [hm]
      · have hm2 : ¬ env.LogTimeMinString e = m := fun hh => hm hh.symm
        simp [hm, hm2]
    unfold bufferedAt
    rw [hs, h1]
    push_cast
    ring

theorem WatchingInv_step (env : Env) (S : Finset String) (s : Store) (e : AccessLog)
    (hc : e.RemoteAddr ∈ S) (hparse : env.GetLog (env.LogString e) = e)
    (h : WatchingInv env S s) : WatchingInv env S (DoFilter env s e).2 := by
  by_cases hbot : (e.UserAgent = "-" ∨ Contains (ToLower env e.UserAgent) "bot" = true ∨
      Contains (ToLower env e.UserAgent) "spider" = true)
  · rw [DoFilter_bot env s e hbot]
    exact WatchingInv_of_same env S s _ rfl (fun m => by simp [Redis.HashIncrby]) h
  by_cases hp : env.Parse e.UserAgent = ""
  · rw [DoFilter_unparsed env s e hbot hp]
    exact WatchingInv_of_same env S s _ rfl (fun m => by simp [Redis.HashIncrby]) h
  have hua := passesUA_of_not env e hbot hp
  cases hpath : MatchString "^/prop/view/" e.RequestURI
  · rw [DoFilter_passesUA env s e hua, URIFilter_untracked env _ e hpath]
    unfold Analysis
    split_ifs
    · exact WatchingInv_resolve env S s e hc h
    · exact WatchingInv_of_same env S s _ (afterUA_lists env s e)
        (fun m => afterUA_watching env s e m) h
  · cases hcode : MatchString "^2" e.HttpCode
    · rw [DoFilter_passesUA env s e hua, URIFilter_other_code env _ e hpath hcode]
      exact WatchingInv_of_same env S s _ (afterUA_lists env s e)
        (fun m => by simp [Redis.HashIncrby, afterUA, AddRefererList]) h
    · cases hwhite : s.redisConn.sets "WhiteList" e.RemoteAddr
      · exact WatchingInv_enqueue env S s e hc hparse hua hpath hcode hwhite h
      · obtain ⟨_, h2, _, _, h5, _⟩ := DoFilter_white env s e hua hpath hcode hwhite
        exact WatchingInv_of_same env S s _ h2 h5 h

theorem WatchingInv_run (env : Env) (S : Finset String) :
    ∀ (events : List AccessLog) (s : Store),
      (∀ e ∈ events, e.RemoteAddr ∈ S ∧ env.GetLog (env.LogString e) = e) →
      WatchingInv env S s → WatchingInv env S (runFilter env s events) := by
  intro events
  induction events with
  | nil => intro s _ h; exact h
  | cons e rest ih =>
    intro s hall h
    have he := hall e (List.mem_cons_self _ _)
    exact ih _ (fun x hx => hall x (List.mem_cons_of_mem _ hx))
      (WatchingInv_step env S s e he.1 he.2 h)

theorem WatchingInv_empty (env : Env) (S : Finset String) : WatchingInv env S Store.empty := by
  refine ⟨fun k hk => absurd rfl hk, fun m => ?_⟩
  simp [Store.empty, Redis.empty, bufferedAt, bufferedFor]

/-- C12: `vppv_watching` counts the events still buffered.  After any finite
sequence of events run through `DoFilter` from the empty store, each of which
is given back by parsing its serialisation, every non-empty list is the
watching list of a client of the run, and for every minute `m` the counter
`vppv_watching` at `m` is the number of lines, over the watching lists of all
clients of the run, whose own minute is `m`; so it is never negative, and it
is 0 when every watching list is empty. -/
theorem C12_watching_counts_buffered (env : Env) (events : List AccessLog) (m : String)
    (hparse : ∀ e ∈ events, env.GetLog (env.LogString e) = e) :
    (∀ k, (runFilter env Store.empty events).redisConn.lists k ≠ [] →
      ∃ c ∈ clientsOf events, k = "WL_" ++ c) ∧
    (runFilter env Store.empty events).redisConn3.hashes
        "accesslog_result_vppv_watching_per_min" m =
      (bufferedAt env (runFilter env Store.empty events) (clientsOf events) m : Int) ∧
    0 ≤ (runFilter env Store.empty events).redisConn3.hashes
        "accesslog_result_vppv_watching_per_min" m ∧
    ((∀ c ∈ clientsOf events,
        (runFilter env Store.empty events).redisConn.lists ("WL_" ++ c) = []) →
      (runFilter env Store.empty events).redisConn3.hashes
        "accesslog_result_vppv_watching_per_min" m = 0) := by
  have hinv : WatchingInv env (clientsOf events) (runFilter env Store.empty events) := by
    apply WatchingInv_run env (clientsOf events) events Store.empty _
      (WatchingInv_empty env _)
    intro e he
    refine ⟨?_, hparse e he⟩
    unfold clientsOf
    rw [List.mem_toFinset]
    exact List.mem_map_of_mem _ he
  refine ⟨hinv.1, hinv.2 m, ?_, ?_⟩
  · rw [hinv.2 m]
    exact Int.natCast_nonneg _
  · intro hempty
    rw [hinv.2 m]
    have : bufferedAt env (runFilter env Store.empty events) (clientsOf events) m = 0 := by
      unfold bufferedAt
      apply Finset.sum_eq_zero
      intro c hc
      unfold bufferedFor
      rw [hempty c hc]
      rfl
    rw [this]
    rfl

/-- C12, witness: `evB` and `evB2` are buffered, then the trigger `evT`
resolves both, then `evB2` arrives again after the client was confirmed. -/
theorem C12_watching_counts_buffered_witness :
    (∀ e ∈ [evB, evB2, evT, evB2], demoEnv.GetLog (demoEnv.LogString e) = e) ∧
    (runFilter demoEnv Store.empty [evB, evB2]).redisConn3.hashes
        "accesslog_result_vppv_watching_per_min" (demoEnv.LogTimeMinString evB2) = 1 ∧
    (runFilter demoEnv Store.empty [evB, evB2, evT, evB2]).redisConn3.hashes
        "accesslog_result_vppv_watching_per_min" (demoEnv.LogTimeMinString evB2) =
      (bufferedAt demoEnv (runFilter demoEnv Store.empty [evB, evB2, evT, evB2])
        (clientsOf [evB, evB2, evT, evB2]) (demoEnv.LogTimeMinString evB2) : Int) :=
  ⟨by decide, by decide,
   (C12_watching_counts_buffered demoEnv [evB, evB2, evT, evB2]
      (demoEnv.LogTimeMinString evB2) (by decide)).2.1⟩

/-! ## The ingestion loop -/

theorem replay_append (c : Redis) (xs ys : List Call) :
    c.replay (xs ++ ys) = (c.replay xs).replay ys := by
  simp [Redis.replay, List.foldl_append]

theorem replay_stage :
    ∀ (cs : List Call) (c : Redis), cs.all Call.stageIncr = true →
      (c.replay cs).calls = c.calls ++ cs ∧ (c.replay cs).lists = c.lists ∧
      (c.replay cs).sets = c.sets ∧
      ∀ f, (c.replay cs).hashes "accesslog_result_total_request_per_min" f =
        c.hashes "accesslog_result_total_request_per_min" f := by
  intro cs
  induction cs with
  | nil => intro c _; simp [Redis.replay]
  | cons x rest ih =>
    intro c h
    rw [List.all_cons, Bool.and_eq_true] at h
    have hrest := ih (c.replayCall x) h.2
    have hx := h.1
    cases x <;> simp [Call.stageIncr] at hx
    rename_i ht field increment
    have hne : ¬ ("accesslog_result_total_request_per_min" = ht) := fun hh => hx hh.symm
    have hstep : c.replay (Call.HashIncrby ht field increment :: rest) =
        (c.replayCall (Call.HashIncrby ht field increment)).replay rest := rfl
    rw [hstep]
    obtain ⟨h1, h2, h3, h4⟩ := hrest
    refine ⟨?_, ?_, ?_, ?_⟩
    · rw [h1]; simp [Redis.replayCall, Redis.HashIncrby]
    · rw [h2]; rfl
    · rw [h3]; rfl
    · intro f
      rw [h4]
      simp [Redis.replayCall, Redis.HashIncrby, hne]

theorem replay_shift (t fl : String) :
    ∀ (cs : List Call) (c c2 : Redis),
      (∀ ht f, c2.hashes ht f = c.hashes ht f + (if ht = t ∧ f = fl then 1 else 0)) →
      ∀ ht f, (c2.replay cs).hashes ht f =
        (c.replay cs).hashes ht f + (if ht = t ∧ f = fl then 1 else 0) := by
  intro cs
  induction cs with
  | nil => intro c c2 h; exact h
  | cons x rest ih =>
    intro c c2 h
    have hstep : ∀ r : Redis, r.replay (x :: rest) = (r.replayCall x).replay rest :=
      fun _ => rfl
    rw [hstep c, hstep c2]
    apply ih
    intro ht f
    cases x <;> simp only [Redis.replayCall, h]
    rename_i ht2 field increment
    simp only [Redis.HashIncrby, h]
    split_ifs <;> ring

theorem entryCalls_stage (env : Env) (line : String) :
    (entryCalls env line).all Call.stageIncr = true := by
  rcases entry_cases (env.GetLog line) with ⟨h1, h2⟩ | ⟨h1, h2, _⟩ | ⟨h1, h2, _⟩ <;>
    simp [entryCalls, h1, h2, Call.stageIncr]

theorem judgeEntry_replay (env : Env) (c : Redis) (line : String) :
    judgeEntry env c line = c.replay (entryCalls env line) := by
  rcases entry_cases (env.GetLog line) with ⟨h1, h2⟩ | ⟨h1, h2, _⟩ | ⟨h1, h2, _⟩ <;>
    simp [judgeEntry, entryCalls, h1, h2, Redis.replay, Redis.replayCall]

theorem drainCalls_stage (env : Env) (L : List String) :
    (drainCalls env L).all Call.stageIncr = true := by
  induction L with
  | nil => rfl
  | cons line rest ih =>
    rw [drainCalls, List.all_append, entryCalls_stage, ih]
    rfl

theorem foldl_judgeEntry_replay (env : Env) :
    ∀ (L : List String) (c : Redis),
      L.foldl (judgeEntry env) c = c.replay (drainCalls env L) := by
  intro L
  induction L with
  | nil => intro c; rfl
  | cons line rest ih =>
    intro c
    rw [List.foldl_cons, ih, judgeEntry_replay, drainCalls, replay_append]

theorem ProcessWatchingList_replay (env : Env) (r : Redis) (e : AccessLog) :
    ∃ r2 : Redis, ∀ c : Redis,
      ProcessWatchingList env (Store.mk r c) e =
        Store.mk r2 (c.replay (drainCalls env (r.lists ("WL_" ++ e.RemoteAddr)))) := by
  by_cases hq : (r.lists ("WL_" ++ e.RemoteAddr)).any (fun l => qualifies (env.GetLog l)) = true
  · refine ⟨(AddWhiteList (DelRefererList (DelWatchingList
      (Store.mk (popAll (r.ListLen ("WL_" ++ e.RemoteAddr)).2 ("WL_" ++ e.RemoteAddr)
        (r.lists ("WL_" ++ e.RemoteAddr))) Redis.empty) e) e) e).redisConn, ?_⟩
    intro c
    rw [ProcessWatchingList_eq, if_pos hq, foldl_judgeEntry_replay]
    rfl
  · refine ⟨(DelRefererList (DelWatchingList
      (Store.mk (popAll (r.ListLen ("WL_" ++ e.RemoteAddr)).2 ("WL_" ++ e.RemoteAddr)
        (r.lists ("WL_" ++ e.RemoteAddr))) Redis.empty) e) e).redisConn, ?_⟩
    intro c
    rw [ProcessWatchingList_eq, if_neg hq, foldl_judgeEntry_replay]
    rfl

@[simp] theorem code_ne_total (c : String) :
    ("accesslog_result_vppv_code_" ++ c ++ "_per_min" =
      "accesslog_result_total_request_per_min") = False :=
  eq_false (fun h => ne_of_data_append "accesslog_result_vppv_code_".data
    (c.data ++ "_per_min".data) _ _ (by simp [String.data_append]) (by decide) h.symm)

theorem URIFilter_replay (env : Env) (r : Redis) (e : AccessLog) :
    ∃ (v : Int) (r2 : Redis) (cs : List Call), cs.all Call.stageIncr = true ∧
      ∀ c : Redis, URIFilter env (Store.mk r c) e = (v, Store.mk r2 (c.replay cs)) := by
  cases hpath : MatchString "^/prop/view/" e.RequestURI
  · by_cases hhost : MatchString "^s.anjuke.com" e.Hostname = true
    · obtain ⟨r2, h2⟩ := ProcessWatchingList_replay env r e
      refine ⟨UNKNOWN, r2, drainCalls env (r.lists ("WL_" ++ e.RemoteAddr)),
        drainCalls_stage env _, ?_⟩
      intro c
      rw [URIFilter_untracked env _ e hpath]
      simp only [Analysis, hhost, if_true, h2]
    · refine ⟨UNKNOWN, r, [], rfl, ?_⟩
      intro c
      rw [URIFilter_untracked env _ e hpath]
      simp only [Analysis, hhost]
      rfl
  · cases hcode : MatchString "^2" e.HttpCode
    · refine ⟨UNKNOWN, r,
        [Call.HashIncrby "accesslog_result_vppv_total_per_min" (env.LogTimeMinString e) 1,
         Call.HashIncrby ("accesslog_result_vppv_code_" ++ e.HttpCode ++ "_per_min")
           (env.LogTimeMinString e) 1], by simp [Call.stageIncr], ?_⟩
      intro c
      rw [URIFilter_other_code env _ e hpath hcode]
      rfl
    · cases hwhite : r.sets "WhiteList" e.RemoteAddr
      · refine ⟨UNKNOWN,
          ((r.SetIsMember "WhiteList" e.RemoteAddr).2.SetAdd "WatchingList"
            e.RemoteAddr).ListLeftPush ("WL_" ++ e.RemoteAddr) (env.LogString e),
          [Call.HashIncrby "accesslog_result_vppv_total_per_min" (env.LogTimeMinString e) 1,
           Call.HashIncrby ("accesslog_result_vppv_code_" ++ e.HttpCode ++ "_per_min")
             (env.LogTimeMinString e) 1,
           Call.HashIncrby "accesslog_result_vppv_watching_per_min"
             (env.LogTimeMinString e) 1], by simp [Call.stageIncr], ?_⟩
        intro c
        rw [URIFilter_enqueue env _ e hpath hcode hwhite]
        rfl
      · refine ⟨YES, (r.SetIsMember "WhiteList" e.RemoteAddr).2,
          [Call.HashIncrby "accesslog_result_vppv_total_per_min" (env.LogTimeMinString e) 1,
           Call.HashIncrby ("accesslog_result_vppv_code_" ++ e.HttpCode ++ "_per_min")
             (env.LogTimeMinString e) 1], by simp [Call.stageIncr], ?_⟩
        intro c
        rw [URIFilter_white env _ e hpath hcode hwhite]
        rfl

theorem DoFilter_replay (env : Env) (r : Redis) (e : AccessLog) :
    ∃ (v : Int) (r2 : Redis) (cs : List Call), cs.all Call.stageIncr = true ∧
      ∀ c : Redis, DoFilter env (Store.mk r c) e = (v, Store.mk r2 (c.replay cs)) := by
  by_cases hbot : (e.UserAgent = "-" ∨ Contains (ToLower env e.UserAgent) "bot" = true ∨
      Contains (ToLower env e.UserAgent) "spider" = true)
  · refine ⟨NO, r, [Call.HashIncrby "accesslog_result_ua_not_pass_per_min"
      (env.LogTimeMinString e) 1], by simp [Call.stageIncr], ?_⟩
    intro c
    rw [DoFilter_bot env _ e hbot]
    rfl
  by_cases hp : env.Parse e.UserAgent = ""
  · refine ⟨NO, r, [Call.HashIncrby "accesslog_result_ua_not_pass_per_min"
      (env.LogTimeMinString e) 1], by simp [Call.stageIncr], ?_⟩
    intro c
    rw [DoFilter_unparsed env _ e hbot hp]
    rfl
  have hua := passesUA_of_not env e hbot hp
  obtain ⟨v, r2, cs, hcs, h⟩ := URIFilter_replay env
    ((r.SetAdd "RefererList" e.RemoteAddr).SetAdd ("Referer_" ++ e.RemoteAddr)
      ("http://" ++ e.Hostname ++ e.RequestURI)) e
  refine ⟨v, r2,
    [Call.HashIncrby "accesslog_result_ua_pass_per_min" (env.LogTimeMinString e) 1,
     Call.HashIncrby "accesslog_result_ua_statistic"
       (ToLower env (env.Parse e.UserAgent)) 1] ++ cs, ?_, ?_⟩
  · rw [List.all_append, hcs]
    simp [Call.stageIncr]
  · intro c
    rw [DoFilter_passesUA env _ e hua, replay_append, ← h]
    rfl

theorem BlockListRightPop_last (r : Redis) (list line : String) (timeout : Int)
    (items : List String) (hq : r.lists list = items ++ [line]) :
    (r.BlockListRightPop list timeout).1 = (list, line) ∧
    (r.BlockListRightPop list timeout).2.lists list = items := by
  unfold Redis.BlockListRightPop
  have hlast : (r.lists list).getLast? = some line := by
    rw [hq]; simp
  rw [hlast]
  simp [hq]

theorem iteration_line (env : Env) (g : Globals) (items : List String) (line : String)
    (hq : g.redisConn1.lists "accesslog" = items ++ [line]) (hne : line ≠ "") :
    Filter.iteration env g =
      { redisConn1 := (g.redisConn1.BlockListRightPop "accesslog" 5).2
        redisConn2 := (DoFilter env (Store.mk g.redisConn2
          (g.redisConn3.HashIncrby "accesslog_result_total_request_per_min"
            (env.LogTimeMinString (env.GetLog line)) 1)) (env.GetLog line)).2.redisConn
        redisConn3 :=
          if (DoFilter env (Store.mk g.redisConn2
              (g.redisConn3.HashIncrby "accesslog_result_total_request_per_min"
                (env.LogTimeMinString (env.GetLog line)) 1)) (env.GetLog line)).1 = YES then
            (DoFilter env (Store.mk g.redisConn2
              (g.redisConn3.HashIncrby "accesslog_result_total_request_per_min"
                (env.LogTimeMinString (env.GetLog line)) 1))
              (env.GetLog line)).2.redisConn3.HashIncrby
              "accesslog_result_vppv_effective_per_min"
              (env.LogTimeMinString (env.GetLog line)) 1
          else
            (DoFilter env (Store.mk g.redisConn2
              (g.redisConn3.HashIncrby "accesslog_result_total_request_per_min"
                (env.LogTimeMinString (env.GetLog line)) 1)) (env.GetLog line)).2.redisConn3 } := by
  have hpop := (BlockListRightPop_last g.redisConn1 "accesslog" line 5 items hq).1
  unfold Filter.iteration
  simp only [hpop, if_neg hne]

/-- C13: one iteration of the loop of `Filter` on a non-empty line, the
rightmost of the queue `accesslog`, takes the line off the queue and changes
the store as `DoFilter` does on the parsed event plus the two effects of the
loop.  The connection of the sets and lists ends as `DoFilter` leaves it; on
the connection of the counters the calls are one increment of `total_request`
at the minute of the event, then the calls of `DoFilter`, then one increment
of `vppv_effective` at the minute of the event exactly when the verdict is
YES; so every hash field ends as `DoFilter` leaves it plus these, and
`total_request` at the minute of the event is 1 higher than before whatever the
verdict. -/
theorem C13_filter_iteration (env : Env) (g : Globals) (items : List String) (line : String)
    (hq : g.redisConn1.lists "accesslog" = items ++ [line]) (hne : line ≠ "") :
    (Filter.iteration env g).redisConn1.lists "accesslog" = items ∧
    (Filter.iteration env g).redisConn2 =
      (DoFilter env (Store.mk g.redisConn2 g.redisConn3) (env.GetLog line)).2.redisConn ∧
    (∀ ht f, (Filter.iteration env g).redisConn3.hashes ht f =
      (DoFilter env (Store.mk g.redisConn2 g.redisConn3) (env.GetLog line)).2.redisConn3.hashes
          ht f +
        (if ht = "accesslog_result_total_request_per_min" ∧
            f = env.LogTimeMinString (env.GetLog line) then 1 else 0) +
        (if (DoFilter env (Store.mk g.redisConn2 g.redisConn3) (env.GetLog line)).1 = YES ∧
            ht = "accesslog_result_vppv_effective_per_min" ∧
            f = env.LogTimeMinString (env.GetLog line) then 1 else 0)) ∧
    (Filter.iteration env g).redisConn3.lists =
      (DoFilter env (Store.mk g.redisConn2 g.redisConn3) (env.GetLog line)).2.redisConn3.lists ∧
    (Filter.iteration env g).redisConn3.sets =
      (DoFilter env (Store.mk g.redisConn2 g.redisConn3) (env.GetLog line)).2.redisConn3.sets ∧
    newCalls g.redisConn3 (Filter.iteration env g).redisConn3 =
      Call.HashIncrby "accesslog_result_total_request_per_min"
          (env.LogTimeMinString (env.GetLog line)) 1 ::
        newCalls g.redisConn3
          (DoFilter env (Store.mk g.redisConn2 g.redisConn3) (env.GetLog line)).2.redisConn3 ++
        (if (DoFilter env (Store.mk g.redisConn2 g.redisConn3) (env.GetLog line)).1 = YES then
          [Call.HashIncrby "accesslog_result_vppv_effective_per_min"
            (env.LogTimeMinString (env.GetLog line)) 1]
         else []) ∧
    (Filter.iteration env g).redisConn3.hashes "accesslog_result_total_request_per_min"
        (env.LogTimeMinString (env.GetLog line)) =
      g.redisConn3.hashes "accesslog_result_total_request_per_min"
        (env.LogTimeMinString (env.GetLog line)) + 1 := by
  obtain ⟨v, r2, cs, hcs, hD⟩ := DoFilter_replay env g.redisConn2 (env.GetLog line)
  rw [iteration_line env g items line hq hne, hD, hD]
  obtain ⟨c2, hc2⟩ : ∃ c2 : Redis, c2 = g.redisConn3.HashIncrby
      "accesslog_result_total_request_per_min" (env.LogTimeMinString (env.GetLog line)) 1 :=
    ⟨_, rfl⟩
  rw [← hc2]
  have hc2h : ∀ ht f, c2.hashes ht f = g.redisConn3.hashes ht f +
      (if ht = "accesslog_result_total_request_per_min" ∧
        f = env.LogTimeMinString (env.GetLog line) then 1 else 0) := by
    intro ht f
    rw [hc2]
    simp only [Redis.HashIncrby]
    split_ifs <;> simp
  have hc2c : c2.calls = g.redisConn3.calls ++
      [Call.HashIncrby "accesslog_result_total_request_per_min"
        (env.LogTimeMinString (env.GetLog line)) 1] := by
    rw [hc2]; rfl
  have hc2l : c2.lists = g.redisConn3.lists := by rw [hc2]; rfl
  have hc2s : c2.sets = g.redisConn3.sets := by rw [hc2]; rfl
  have hshift := replay_shift "accesslog_result_total_request_per_min"
    (env.LogTimeMinString (env.GetLog line)) cs g.redisConn3 c2 hc2h
  obtain ⟨a1, a2, a3, _⟩ := replay_stage cs g.redisConn3 hcs
  obtain ⟨b1, b2, b3, b4⟩ := replay_stage cs c2 hcs
  refine ⟨(BlockListRightPop_last g.redisConn1 "accesslog" line 5 items hq).2, rfl,
    ?_, ?_, ?_, ?_, ?_⟩
  · intro ht f
    by_cases hv : v = YES
    · simp only [hv, if_true, true_and, Redis.HashIncrby, hshift]
      split_ifs <;> simp_all
    · simp only [hv, if_false, false_and, hshift]
      simp
  · by_cases hv : v = YES
    · simp only [hv, if_true, Redis.HashIncrby, b2, a2, hc2l]
    · simp only [hv, if_false, b2, a2, hc2l]
  · by_cases hv : v = YES
    · simp only [hv, if_true, Redis.HashIncrby, b3, a3, hc2s]
    · simp only [hv, if_false, b3, a3, hc2s]
  · by_cases hv : v = YES
    · simp [hv, newCalls, Redis.HashIncrby, b1, a1, hc2c]
    · simp [hv, newCalls, Redis.HashIncrby, b1, a1, hc2c]
  · by_cases hv : v = YES
    · simp [hv, Redis.HashIncrby, b4, hc2h]
    · simp [hv, Redis.HashIncrby, b4, hc2h]

/-- C13, witness: the queue holds `evB`; on empty connections the verdict is
UNKNOWN and the loop adds no `vppv_effective`, and when the client is in
`WhiteList` the verdict is YES and `vppv_effective` at the minute of `evB`
becomes 1; `total_request` becomes 1 in both. -/
theorem C13_filter_iteration_witness :
    queuedB.redisConn1.lists "accesslog" = [] ++ [demoEnv.LogString evB] ∧
    demoEnv.LogString evB ≠ "" ∧
    (Filter.iteration demoEnv queuedB).redisConn3.hashes
        "accesslog_result_total_request_per_min"
        (demoEnv.LogTimeMinString (demoEnv.GetLog (demoEnv.LogString evB))) =
      queuedB.redisConn3.hashes "accesslog_result_total_request_per_min"
        (demoEnv.LogTimeMinString (demoEnv.GetLog (demoEnv.LogString evB))) + 1 ∧
    (Filter.iteration demoEnv queuedB).redisConn3.hashes
        "accesslog_result_vppv_effective_per_min" (demoEnv.LogTimeMinString evB) = 0 ∧
    (Filter.iteration demoEnv queuedWhiteB).redisConn3.hashes
        "accesslog_result_vppv_effective_per_min" (demoEnv.LogTimeMinString evB) = 1 ∧
    (Filter.iteration demoEnv queuedWhiteB).redisConn3.hashes
        "accesslog_result_total_request_per_min" (demoEnv.LogTimeMinString evB) = 1 :=
  ⟨by decide, by decide,
   (C13_filter_iteration demoEnv queuedB [] (demoEnv.LogString evB) (by decide)
      (by decide)).2.2.2.2.2.2, by decide, by decide, by decide⟩

end Holmes
